import Mathlib

/-!
Verification of the transcript resolution and extraction pipeline of the
`youtube-transcript-ts` library against its natural-language specification.

The TypeScript sources are shallowly embedded: JS strings become `List Char`,
JS numbers become `ℚ` (with `Math.floor` / `Math.round` / `%` modelled
explicitly), JS `Map` becomes an association list with overwrite-on-set,
thrown exceptions become `Except`, and awaited network results become
explicit outcome parameters.  Recursive scanners carry an explicit fuel
argument (initialised to the input length, which every scanner strictly
decreases) so that all definitions reduce by evaluation.
-/

set_option autoImplicit false

/-- JS strings are modelled as lists of characters. -/
abbrev Str := List Char

/-- Convert a Lean string literal to the `Str` model. -/
def chars (s : String) : Str := s.toList

/-- Decidable equality for `Except`, so that concrete outcomes can be
checked by evaluation. -/
instance exceptDecEq {ε α : Type} [DecidableEq ε] [DecidableEq α] :
    DecidableEq (Except ε α) := fun x y =>
  match x, y with
  | .ok a, .ok b => if h : a = b then .isTrue (by rw [h]) else .isFalse (by simp [h])
  | .error e, .error f => if h : e = f then .isTrue (by rw [h]) else .isFalse (by simp [h])
  | .ok _, .error _ => .isFalse (by simp)
  | .error _, .ok _ => .isFalse (by simp)

/-! ## Formatters (`src/formatters.ts`)

`TranscriptSnippet` and `Transcript` are the value objects produced by the
parser and consumed by the formatters (`src/types.ts`). -/

structure TranscriptSnippet where
  text : Str
  start : ℚ
  duration : ℚ
  deriving DecidableEq, Inhabited, Repr

structure Transcript where
  snippets : List TranscriptSnippet
  videoId : Str
  language : Str
  languageCode : Str
  isGenerated : Bool
  deriving DecidableEq, Inhabited, Repr

/-- Decimal rendering of a natural number, fuelled so that it reduces by
evaluation; models `Number.prototype.toString()` on integral values. -/
def natToDecAux : ℕ → ℕ → Str
  | 0, _ => []
  | fuel + 1, n =>
    if n < 10 then [Char.ofNat (48 + n)]
    else natToDecAux fuel (n / 10) ++ [Char.ofNat (48 + n % 10)]

/-- `natToDec n` is the usual decimal numeral of `n` (fuel `n + 1` always
suffices since the numeral of `n` has at most `n + 1` digits). -/
def natToDec (n : ℕ) : Str := natToDecAux (n + 1) n

/-- Decimal rendering of an integer; models `Number.prototype.toString()`. -/
def intToDec (i : ℤ) : Str :=
  if i < 0 then '-' :: natToDec i.natAbs else natToDec i.toNat

/-- Models `String.prototype.padStart(width, c)` for a one-character pad. -/
def jsPadStart (width : ℕ) (c : Char) (s : Str) : Str :=
  List.replicate (width - s.length) c ++ s

/-- `TextBasedFormatter.pad(num, width)`: decimal render, left-padded with
zeros. -/
def padNum (num : ℤ) (width : ℕ) : Str := jsPadStart width '0' (intToDec num)

/-- JS number truncation toward zero (used by the `%` operator). -/
def jsTrunc (q : ℚ) : ℤ := if 0 ≤ q then ⌊q⌋ else ⌈q⌉

/-- The JS remainder operator `n % d`: `n - d * trunc(n / d)`. -/
def jsMod (n d : ℚ) : ℚ := n - d * (jsTrunc (n / d) : ℚ)

/-- `Math.round`: round half away from zero; on the nonnegative inputs used
here this is `⌊q + 1/2⌋`. -/
def jsRound (q : ℚ) : ℤ := ⌊q + 1 / 2⌋

/-- `TextBasedFormatter.divmod(n, d) = [Math.floor(n / d), n % d]`. -/
def divmod (n d : ℚ) : ℚ × ℚ := (((⌊n / d⌋ : ℤ) : ℚ), jsMod n d)

/-- `TextBasedFormatter.secondsToTimestamp`, parameterised by the abstract
`formatTimestamp` method of the concrete subclass. -/
def secondsToTimestamp (fmtTimestamp : ℤ → ℤ → ℤ → ℤ → Str) (time : ℚ) : Str :=
  let hr := divmod time 3600
  let ms2 := divmod hr.2 60
  let ms := jsRound ((time - ((⌊time⌋ : ℤ) : ℚ)) * 1000)
  fmtTimestamp ⌊hr.1⌋ ⌊ms2.1⌋ ⌊ms2.2⌋ ms

/-- `SRTFormatter.formatTimestamp`: `HH:MM:SS,mmm`. -/
def srtTimestamp (hours mins secs ms : ℤ) : Str :=
  padNum hours 2 ++ chars ":" ++ padNum mins 2 ++ chars ":" ++ padNum secs 2 ++
    chars "," ++ padNum ms 3

/-- `WebVTTFormatter.formatTimestamp`: `HH:MM:SS.mmm`. -/
def vttTimestamp (hours mins secs ms : ℤ) : Str :=
  padNum hours 2 ++ chars ":" ++ padNum mins 2 ++ chars ":" ++ padNum secs 2 ++
    chars "." ++ padNum ms 3

/-- The `timeText` computed for the cue at index `i` inside
`TextBasedFormatter.format`: the end time is clipped to the next snippet's
start when that is earlier than `start + duration`. -/
def cueTimeText (fmtTimestamp : ℤ → ℤ → ℤ → ℤ → Str)
    (snippets : List TranscriptSnippet) (i : ℕ) (line : TranscriptSnippet) : Str :=
  let e := line.start + line.duration
  let nextStart := if i < snippets.length - 1 then (snippets.getD (i + 1) default).start else e
  secondsToTimestamp fmtTimestamp line.start ++ chars " --> " ++
    secondsToTimestamp fmtTimestamp (if nextStart < e then nextStart else e)

/-- The `lines` array computed by `TextBasedFormatter.format`. -/
def textBasedLines (fmtTimestamp : ℤ → ℤ → ℤ → ℤ → Str)
    (fmtLine : ℕ → Str → TranscriptSnippet → Str)
    (snippets : List TranscriptSnippet) : List Str :=
  snippets.enum.map fun p => fmtLine p.1 (cueTimeText fmtTimestamp snippets p.1 p.2) p.2

/-- `Array.prototype.join(sep)`. -/
def joinSep (sep : Str) : List Str → Str
  | [] => []
  | [a] => a
  | a :: rest => a ++ sep ++ joinSep sep rest

/-- `SRTFormatter.formatTranscriptLine`: `index\ntimeText\ntext`. -/
def srtLine (i : ℕ) (timeText : Str) (snippet : TranscriptSnippet) : Str :=
  natToDec (i + 1) ++ chars "\n" ++ timeText ++ chars "\n" ++ snippet.text

/-- `SRTFormatter.formatTranscriptHeader`. -/
def srtHeader (lines : List Str) : Str := joinSep (chars "\n\n") lines ++ chars "\n"

/-- `WebVTTFormatter.formatTranscriptLine`: `timeText\ntext`. -/
def vttLine (_ : ℕ) (timeText : Str) (snippet : TranscriptSnippet) : Str :=
  timeText ++ chars "\n" ++ snippet.text

/-- `WebVTTFormatter.formatTranscriptHeader`. -/
def vttHeader (lines : List Str) : Str :=
  chars "WEBVTT\n\n" ++ joinSep (chars "\n\n") lines ++ chars "\n"

/-- `TextBasedFormatter.format`, parameterised by the three abstract methods. -/
def textBasedFormat (fmtTimestamp : ℤ → ℤ → ℤ → ℤ → Str)
    (fmtLine : ℕ → Str → TranscriptSnippet → Str)
    (fmtHeader : List Str → Str) (t : Transcript) : Str :=
  fmtHeader (textBasedLines fmtTimestamp fmtLine t.snippets)

/-- `SRTFormatter.format`. -/
def srtFormat (t : Transcript) : Str := textBasedFormat srtTimestamp srtLine srtHeader t

/-- `WebVTTFormatter.format`. -/
def vttFormat (t : Transcript) : Str := textBasedFormat vttTimestamp vttLine vttHeader t

/-! ## Timed-text parser (`TranscriptEntry` in `src/api.ts`)

Recursive scanners take an explicit fuel argument, initialised by a wrapper
to the input length; every step consumes at least one input character, so
the fuel never runs out on the wrapper's call. -/

/-- Match a literal prefix, returning the remaining input on success. -/
def matchLit : Str → Str → Option Str
  | [], s => some s
  | _ :: _, [] => none
  | p :: ps, c :: cs => if p = c then matchLit ps cs else none

/-- `spanP p s` splits `s` into its longest prefix of characters satisfying
`p` and the remainder. -/
def spanP (p : Char → Bool) : Str → Str × Str
  | [] => ([], [])
  | c :: rest =>
    if p c then
      let r := spanP p rest
      (c :: r.1, r.2)
    else ([], c :: rest)

/-- `String.prototype.split(sep)` for a one-character separator. -/
def splitOnChar (sep : Char) : Str → List Str
  | [] => [[]]
  | c :: rest =>
    if c = sep then [] :: splitOnChar sep rest
    else
      match splitOnChar sep rest with
      | [] => [[c]]
      | p :: ps => (c :: p) :: ps

/-- `String.prototype.includes(c)` for a one-character argument. -/
def includesChar (s : Str) (c : Char) : Bool :=
  match s with
  | [] => false
  | d :: rest => d = c || includesChar rest c

/-- Substring test: models `str.split(marker).length > 1` and
`String.prototype.includes(marker)`. -/
def containsSub (needle : Str) : Str → Bool
  | [] => needle.isEmpty
  | c :: rest => (matchLit needle (c :: rest)).isSome || containsSub needle rest

/-- `String.prototype.replace(/pat/g, rep)` for a literal pattern `pat`:
left-to-right, non-overlapping, replacements are not rescanned. -/
def replaceAllAux (pat rep : Str) : ℕ → Str → Str
  | 0, s => s
  | _ + 1, [] => []
  | fuel + 1, c :: rest =>
    match matchLit pat (c :: rest) with
    | some remaining => rep ++ replaceAllAux pat rep fuel remaining
    | none => c :: replaceAllAux pat rep fuel rest

/-- Wrapper fixing the fuel to the input length (sufficient: each step of
`replaceAllAux` with the nonempty patterns used here consumes at least one
character). -/
def replaceAll (pat rep s : Str) : Str := replaceAllAux pat rep s.length s

/-- One named/numeric entity at the point just after a `&`; models the
entities of the `html-entities` `decode` relevant to caption payloads
(the full named-entity table is out of scope). -/
def entitySubst (s : Str) : Option (Char × Str) :=
  match matchLit (chars "quot;") s with
  | some r => some ('"', r)
  | none =>
  match matchLit (chars "apos;") s with
  | some r => some ('\x27', r)
  | none =>
  match matchLit (chars "lt;") s with
  | some r => some ('<', r)
  | none =>
  match matchLit (chars "gt;") s with
  | some r => some ('>', r)
  | none =>
  match matchLit (chars "amp;") s with
  | some r => some ('&', r)
  | none =>
  match matchLit (chars "nbsp;") s with
  | some r => some (' ', r)
  | none =>
  match matchLit (chars "#160;") s with
  | some r => some (' ', r)
  | none => none

/-- The `decode` call of the `html-entities` library (modelled for the
entities above). -/
def decodeEntitiesAux : ℕ → Str → Str
  | 0, s => s
  | _ + 1, [] => []
  | fuel + 1, c :: rest =>
    if c = '&' then
      match entitySubst rest with
      | some (d, r) => d :: decodeEntitiesAux fuel r
      | none => '&' :: decodeEntitiesAux fuel rest
    else c :: decodeEntitiesAux fuel rest

/-- Wrapper fixing the fuel to the input length. -/
def decodeEntities (s : Str) : Str := decodeEntitiesAux s.length s

/-- `TranscriptEntry.decodeAndClean`: XML entities, then HTML entities, then
the YouTube-specific `&` / `\"` / `\` escape layer, in source order. -/
def decodeAndClean (text : Str) : Str :=
  let d := replaceAll (chars "&quot;") (chars "\"") text
  let d := replaceAll (chars "&apos;") (chars "'") d
  let d := replaceAll (chars "&lt;") (chars "<") d
  let d := replaceAll (chars "&gt;") (chars ">") d
  let d := replaceAll (chars "&amp;") (chars "&") d
  let d := decodeEntities d
  let d := replaceAll (chars "\\u0026") (chars "&") d
  let d := replaceAll (chars "\\\"") (chars "\"") d
  let d := replaceAll (chars "\\") [] d
  d

/-- JS `\s` (the whitespace characters relevant here). -/
def isJsWs (c : Char) : Bool :=
  c = ' ' || c = '\t' || c = '\n' || c = '\r' || c = '\x0B' || c = '\x0C' ||
    c = ' ' || c = '﻿'

/-- `String.prototype.trim()`. -/
def trimStr (s : Str) : Str :=
  ((s.dropWhile isJsWs).reverse.dropWhile isJsWs).reverse

/-- `processedText.replace(/<[^>]*>/gi, '')`: the strip-everything tag
regex used when formatting is not preserved.  A `<` with no later `>` has
no match and stays. -/
def stripAllTagsAux : ℕ → Str → Str
  | 0, s => s
  | _ + 1, [] => []
  | fuel + 1, c :: rest =>
    if c = '<' then
      match rest.dropWhile (fun d => !(d = '>')) with
      | '>' :: after => stripAllTagsAux fuel after
      | _ => c :: stripAllTagsAux fuel rest
    else c :: stripAllTagsAux fuel rest

/-- Wrapper fixing the fuel to the input length. -/
def stripAllTags (s : Str) : Str := stripAllTagsAux s.length s

/-- `replace(/\s+/g, ' ')`: collapse every whitespace run to one space. -/
def collapseWsAux : ℕ → Str → Str
  | 0, s => s
  | _ + 1, [] => []
  | fuel + 1, c :: rest =>
    if isJsWs c then ' ' :: collapseWsAux fuel (rest.dropWhile isJsWs)
    else c :: collapseWsAux fuel rest

/-- Wrapper fixing the fuel to the input length. -/
def collapseWs (s : Str) : Str := collapseWsAux s.length s

/-- One attempted match of `RE_XML_TRANSCRIPT` =
`/<text start="([^"]*)" dur="([^"]*)">([^<]*)<\/text>/g` at the head of the
input: the three captures and the input remaining after the match.  The
bracket classes exclude their closing delimiter, so the regex match is
equivalent to this deterministic longest-prefix scan. -/
def matchTextElem (s : Str) : Option (Str × Str × Str × Str) :=
  match matchLit (chars "<text start=\"") s with
  | none => none
  | some r1 =>
    let sp1 := spanP (fun c => !(c = '"')) r1
    match matchLit (chars "\" dur=\"") sp1.2 with
    | none => none
    | some r2 =>
      let sp2 := spanP (fun c => !(c = '"')) r2
      match matchLit (chars "\">") sp2.2 with
      | none => none
      | some r3 =>
        let sp3 := spanP (fun c => !(c = '<')) r3
        match matchLit (chars "</text>") sp3.2 with
        | none => none
        | some r4 => some (sp1.1, sp2.1, sp3.1, r4)

/-- The `while (match = RE_XML_TRANSCRIPT.exec(decodedXml))` loop: find the
leftmost match, emit its captures, continue after it. -/
def scanMatchesAux : ℕ → Str → List (Str × Str × Str)
  | 0, _ => []
  | _ + 1, [] => []
  | fuel + 1, c :: rest =>
    match matchTextElem (c :: rest) with
    | some (st, du, body, after) => (st, du, body) :: scanMatchesAux fuel after
    | none => scanMatchesAux fuel rest

/-- Wrapper fixing the fuel to the input length (a match consumes at least
the 22 literal characters of the element shape). -/
def scanMatches (s : Str) : List (Str × Str × Str) := scanMatchesAux s.length s

/-- Decimal digit test. -/
def isDigitCh (c : Char) : Bool := '0' ≤ c && c ≤ '9'

/-- Numeric value of a digit character. -/
def digitVal (c : Char) : ℕ := c.toNat - 48

/-- Integer value of a digit string. -/
def digitsToNat (ds : Str) : ℕ := ds.foldl (fun acc c => 10 * acc + digitVal c) 0

/-- Fractional value of the digit string after the decimal point. -/
def fracVal (ds : Str) : ℚ := ds.foldr (fun c acc => ((digitVal c : ℚ) + acc) / 10) 0

/-- Models `parseFloat` on plain decimal notation (sign, digits, optional
fraction); `none` models `NaN`.  Exponent notation does not occur in the
caption payloads' `start`/`dur` attributes and is out of scope. -/
def jsParseFloat (s : Str) : Option ℚ :=
  let s1 := s.dropWhile isJsWs
  let sgn : ℚ × Str :=
    match s1 with
    | '-' :: r => (-1, r)
    | '+' :: r => (1, r)
    | _ => (1, s1)
  let ip := spanP isDigitCh sgn.2
  match ip.2 with
  | '.' :: r2 =>
    let fp := spanP isDigitCh r2
    if ip.1.isEmpty && fp.1.isEmpty then none
    else some (sgn.1 * ((digitsToNat ip.1 : ℚ) + fracVal fp.1))
  | _ => if ip.1.isEmpty then none else some (sgn.1 * (digitsToNat ip.1 : ℚ))

/-- A snippet as emitted by `TranscriptEntry.parseTranscript`; the numeric
fields are `none` when `parseFloat` would give `NaN`. -/
structure ParsedSnippet where
  text : Str
  start : Option ℚ
  duration : Option ℚ
  deriving DecidableEq, Repr

/-- `TranscriptEntry.FORMATTING_TAGS`: the allow-list from which
`getHtmlRegex(true)` builds its keep-these-tags pattern. -/
def FORMATTING_TAGS : List Str :=
  [chars "strong", chars "em", chars "b", chars "i", chars "mark",
   chars "small", chars "del", chars "ins", chars "sub", chars "sup"]

/-- `TranscriptEntry.parseTranscript`.  Note that the tag-removal `replace`
(and the whitespace normalisation) run only in the `!preserveFormatting`
branch: the allow-list pattern that `getHtmlRegex(true)` builds from
`FORMATTING_TAGS` is never applied to any snippet text. -/
def parseTranscript (xmlString : Str) (preserveFormatting : Bool) : List ParsedSnippet :=
  let decodedXml := decodeAndClean xmlString
  (scanMatches decodedXml).map fun m =>
    let processed := decodeAndClean m.2.2
    let processed :=
      if !preserveFormatting then
        trimStr (replaceAll (chars "&nbsp;") (chars " ")
          (replaceAll (chars "&#160;") (chars " ")
            (collapseWs (stripAllTags processed))))
      else processed
    { text := processed, start := jsParseFloat m.1, duration := jsParseFloat m.2.1 }

/-! ## Errors (`src/types.ts`) and JS runtime errors

One error type covers the library's typed errors, plain `new Error(...)`
throws (`genericError` carries the message), and the `TypeError` a field
access on `undefined` raises. -/

inductive ApiError where
  | videoUnavailable (videoId : Str)
  | ipBlocked (videoId : Str)
  | transcriptsDisabled (videoId : Str)
  | noTranscriptFound (videoId : Str) (languages : List Str)
  | notTranslatable (videoId : Str)
  | typeError
  | genericError (message : Str)
  deriving DecidableEq, Repr

/-! ## Identifier normalizer (`YouTubeTranscriptApi.getVideoId`) -/

/-- The parts of a parsed URL that `getVideoId` consults. -/
structure URLParts where
  hostname : Str
  pathname : Str
  search : Str
  deriving DecidableEq, Repr

/-- Models the WHATWG `URL` constructor for the http(s) URL shapes this
library accepts: scheme, hostname up to the first `/`, `?` or `#`, pathname
up to `?` or `#` (defaulting to `/`), then the query string up to `#`.
Userinfo, ports and percent-escapes do not occur in the shapes exercised
here; `none` models the constructor throwing. -/
def parseURL (s : Str) : Option URLParts :=
  let rest? : Option Str :=
    match matchLit (chars "https://") s with
    | some r => some r
    | none => matchLit (chars "http://") s
  match rest? with
  | none => none
  | some rest =>
    let hostSplit := spanP (fun c => !(c = '/' || c = '?' || c = '#')) rest
    if hostSplit.1.isEmpty then none
    else
      let pathSplit := spanP (fun c => !(c = '?' || c = '#')) hostSplit.2
      let pathname := if pathSplit.1.isEmpty then chars "/" else pathSplit.1
      let search :=
        match pathSplit.2 with
        | '?' :: q => q.takeWhile (fun c => !(c = '#'))
        | _ => []
      some { hostname := hostSplit.1, pathname := pathname, search := search }

/-- `url.searchParams.get(nm)`: first `nm=value` pair of the query string
(percent-decoding is outside the shapes exercised here). -/
def searchParamGet (search : Str) (nm : Str) : Option Str :=
  (splitOnChar '&' search).findSome? fun kv =>
    let p := spanP (fun c => !(c = '=')) kv
    if p.1 = nm then
      some (match p.2 with | '=' :: v => v | _ => [])
    else none

/-- `YouTubeTranscriptApi.getVideoId`: bare IDs pass through, URLs are
parsed and matched against the accepted shapes in source order. -/
def getVideoId (videoIdOrUrl : Str) : Except ApiError Str :=
  if videoIdOrUrl.isEmpty then
    .error (.genericError (chars "Video ID or URL cannot be empty"))
  else if !(includesChar videoIdOrUrl '/') && !(includesChar videoIdOrUrl '.') then
    .ok videoIdOrUrl
  else
    match parseURL videoIdOrUrl with
    | none => .error (.genericError (chars "Invalid YouTube URL or video ID: " ++ videoIdOrUrl))
    | some url =>
      let fromYoutuBe : Option Str :=
        if url.hostname = chars "youtu.be" then
          let id := url.pathname.drop 1
          if id.isEmpty then none else some id
        else none
      match fromYoutuBe with
      | some id => .ok id
      | none =>
        if url.hostname = chars "youtube.com" ∨ url.hostname = chars "www.youtube.com" ∨
            url.hostname = chars "m.youtube.com" then
          let fromWatch : Option Str :=
            if url.pathname = chars "/watch" then
              match searchParamGet url.search (chars "v") with
              | some id => if id.isEmpty then none else some id
              | none => none
            else none
          let fromSeg : Str → Option Str := fun pre =>
            match matchLit pre url.pathname with
            | some id => if id.isEmpty then none else some ((splitOnChar '/' id).headD [])
            | none => none
          match fromWatch with
          | some id => .ok id
          | none =>
            match fromSeg (chars "/shorts/") with
            | some id => .ok id
            | none =>
              match fromSeg (chars "/embed/") with
              | some id => .ok id
              | none =>
                match fromSeg (chars "/live/") with
                | some id => .ok id
                | none =>
                  .error (.genericError
                    (chars "Could not extract video ID from: " ++ videoIdOrUrl))
        else
          .error (.genericError (chars "Could not extract video ID from: " ++ videoIdOrUrl))

/-! ## Source extraction guard (`YouTubeTranscriptApi.extractCaptionsJson`)

The marker-absent classification is fully modelled; the marker-present
branch (JSON-parsing the segment after the marker) is abstracted as the
`parseCaptions` parameter, since the classification claims concern only the
marker-absent page shapes. -/

def extractCaptionsJson {α : Type} (parseCaptions : Str → Except ApiError α)
    (html : Str) (videoId : Str) : Except ApiError α :=
  if !(containsSub (chars "\"captions\":") html) then
    if containsSub (chars "class=\"g-recaptcha\"") html then .error (.ipBlocked videoId)
    else if !(containsSub (chars "\"playabilityStatus\":") html) then
      .error (.videoUnavailable videoId)
    else .error (.transcriptsDisabled videoId)
  else parseCaptions html

/-! ## Track catalog (`TranscriptList`) -/

/-- `{ simpleText: ... }` display-name object; the field itself may be
absent. -/
structure RawName where
  simpleText : Option Str
  deriving DecidableEq, Repr

/-- A raw record of `captionsJson.translationLanguages`. -/
structure RawTranslationLanguage where
  languageName : Option RawName
  languageCode : Option Str
  deriving DecidableEq, Repr

/-- A raw record of `captionsJson.captionTracks`; each field may be absent
(`undefined`). -/
structure RawTrack where
  baseUrl : Option Str
  name : Option RawName
  languageCode : Option Str
  kind : Option Str
  isTranslatable : Bool
  deriving DecidableEq, Repr

/-- The `playerCaptionsTracklistRenderer` object. -/
structure CaptionsData where
  translationLanguages : Option (List RawTranslationLanguage)
  captionTracks : Option (List RawTrack)
  deriving DecidableEq, Repr

/-- A built `TranslationLanguage` value. -/
structure TranslationLanguage where
  languageName : Option Str
  languageCode : Option Str
  deriving DecidableEq, Repr

/-- A built `TranscriptEntry` (the HTTP client field is not modelled). -/
structure TranscriptEntry where
  videoId : Str
  url : Option Str
  language : Option Str
  languageCode : Option Str
  isGenerated : Bool
  translationLanguages : List TranslationLanguage
  deriving DecidableEq, Repr

/-- JS `Map.prototype.set`: overwrite in place, append when new. -/
def mapSet {κ ν : Type} [DecidableEq κ] : List (κ × ν) → κ → ν → List (κ × ν)
  | [], k, v => [(k, v)]
  | (k', v') :: rest, k, v =>
    if k' = k then (k, v) :: rest else (k', v') :: mapSet rest k v

/-- JS `Map.prototype.get`. -/
def mapGet {κ ν : Type} [DecidableEq κ] : List (κ × ν) → κ → Option ν
  | [], _ => none
  | (k', v') :: rest, k => if k' = k then some v' else mapGet rest k

/-- The built catalog. -/
structure TranscriptList where
  videoId : Str
  manualTranscripts : List (Option Str × TranscriptEntry)
  generatedTranscripts : List (Option Str × TranscriptEntry)
  translationLanguages : List TranslationLanguage
  deriving DecidableEq, Repr

/-- The `(captionsJson.translationLanguages || []).map(...)` step of
`TranscriptList.build`: `lang.languageName.simpleText` throws a `TypeError`
when the name object is absent. -/
def buildTranslationLanguages :
    List RawTranslationLanguage → Except ApiError (List TranslationLanguage)
  | [] => .ok []
  | lang :: rest =>
    match lang.languageName with
    | none => .error .typeError
    | some nm =>
      match buildTranslationLanguages rest with
      | .error e => .error e
      | .ok ts => .ok ({ languageName := nm.simpleText, languageCode := lang.languageCode } :: ts)

/-- The `(captionsJson.captionTracks || []).forEach(...)` step of
`TranscriptList.build`: `track.name.simpleText` throws a `TypeError` when
the display-name object is absent; otherwise the track is keyed by language
code into the generated map when `track.kind === 'asr'`, else into the
manual map. -/
def buildTracks (videoId : Str) (targets : List TranslationLanguage) :
    List RawTrack → List (Option Str × TranscriptEntry) →
    List (Option Str × TranscriptEntry) →
    Except ApiError (List (Option Str × TranscriptEntry) × List (Option Str × TranscriptEntry))
  | [], man, gen => .ok (man, gen)
  | track :: rest, man, gen =>
    match track.name with
    | none => .error .typeError
    | some nm =>
      let entry : TranscriptEntry :=
        { videoId := videoId, url := track.baseUrl, language := nm.simpleText,
          languageCode := track.languageCode,
          isGenerated := decide (track.kind = some (chars "asr")),
          translationLanguages := if track.isTranslatable then targets else [] }
      if track.kind = some (chars "asr") then
        buildTracks videoId targets rest man (mapSet gen track.languageCode entry)
      else
        buildTracks videoId targets rest (mapSet man track.languageCode entry) gen

/-- `TranscriptList.build`. -/
def TranscriptList.build (videoId : Str) (captionsJson : CaptionsData) :
    Except ApiError TranscriptList :=
  match buildTranslationLanguages (captionsJson.translationLanguages.getD []) with
  | .error e => .error e
  | .ok targets =>
    match buildTracks videoId targets (captionsJson.captionTracks.getD []) [] [] with
    | .error e => .error e
    | .ok maps =>
      .ok { videoId := videoId, manualTranscripts := maps.1,
            generatedTranscripts := maps.2, translationLanguages := targets }

/-- The scan loop of `TranscriptList.findTranscriptInMap`: first language
code of the preference list present in the map. -/
def lookupFirst (codes : List Str) (m : List (Option Str × TranscriptEntry)) :
    Option TranscriptEntry :=
  match codes with
  | [] => none
  | c :: rest =>
    match mapGet m (some c) with
    | some t => some t
    | none => lookupFirst rest m

/-- `TranscriptList.findTranscriptInMap`: throws `NoTranscriptFound` with
the full requested list when no code hits. -/
def findTranscriptInMap (videoId : Str) (codes : List Str)
    (m : List (Option Str × TranscriptEntry)) : Except ApiError TranscriptEntry :=
  match lookupFirst codes m with
  | some t => .ok t
  | none => .error (.noTranscriptFound videoId codes)

/-- `TranscriptList.findTranscript`: the manual map is scanned across the
whole preference list first; only a `NoTranscriptFound` failure falls
through to the generated map. -/
def TranscriptList.findTranscript (tl : TranscriptList) (languageCodes : List Str) :
    Except ApiError TranscriptEntry :=
  match findTranscriptInMap tl.videoId languageCodes tl.manualTranscripts with
  | .ok t => .ok t
  | .error e =>
    match e with
    | .noTranscriptFound _ _ =>
      findTranscriptInMap tl.videoId languageCodes tl.generatedTranscripts
    | _ => .error e

/-! ## Resolution orchestrator (`YouTubeTranscriptApi.fetchTranscript`)

The awaited network outcomes are oracle parameters: `invidiousFirst` is the
result of the leading Invidious attempt, `primary` the result of the whole
YouTube `try` block, `invidiousFallback` the result of the Invidious
attempt in the `catch`.  `invidiousOptions.enabled` and `invidiousClient`
are instance fields read once when `shouldTryInvidiousFirst` is computed
(`enabledStart`/`clientStart`) and re-read inside the `catch`
(`enabledCatch`/`clientCatch`), where they may have changed across the
awaits. -/

def fetchTranscriptFlow {ε ρ : Type} (enabledStart clientStart enabledCatch clientCatch : Bool)
    (invidiousFirst : Except ε ρ) (primary : Except ε ρ)
    (invidiousFallback : Except ε ρ) : Except ε ρ :=
  let shouldTryInvidiousFirst := enabledStart && clientStart
  let firstAttempt : Option ρ :=
    if shouldTryInvidiousFirst then
      match invidiousFirst with
      | .ok r => some r
      | .error _ => none
    else none
  match firstAttempt with
  | some r => .ok r
  | none =>
    match primary with
    | .ok r => .ok r
    | .error e =>
      if enabledCatch && clientCatch && !shouldTryInvidiousFirst then
        match invidiousFallback with
        | .ok r => .ok r
        | .error _ => .error e
      else .error e

/-! ## Batch orchestration (`YouTubeTranscriptApi.fetchTranscripts`)

`fetchOne` is the oracle for `this.fetchTranscript(videoId, ...)` (its
outcome depends only on the normalized id); `getVideoId` is the real
embedded normalizer.  `videoIds.slice(i, i + 3)` grouping becomes `chunk3`;
`Promise.all` rejection with the first synchronously-thrown normalization
error becomes the first `.error` of `collectBatch`. -/

/-- Grouping into batches of `batchSize = 3`. -/
def chunk3 {α : Type} : List α → List (List α)
  | [] => []
  | [a] => [[a]]
  | [a, b] => [[a, b]]
  | a :: b :: c :: rest => [a, b, c] :: chunk3 rest

/-- One `batchPromises` callback: normalize, fetch, and on a fetch failure
re-normalize in the `catch` to key the error entry; a normalization throw
escapes the callback (rejecting the whole `Promise.all`). -/
def batchItem {ρ : Type} (fetchOne : Str → Except ApiError ρ) (videoIdOrUrl : Str) :
    Except ApiError (Str × Except ApiError ρ) :=
  match getVideoId videoIdOrUrl with
  | .error e => .error e
  | .ok videoId =>
    match fetchOne videoId with
    | .ok r => .ok (videoId, .ok r)
    | .error e =>
      match getVideoId videoIdOrUrl with
      | .error e2 => .error e2
      | .ok videoId2 => .ok (videoId2, .error e)

/-- `await Promise.all(batchPromises)`: all settled entries, or the first
rejection in index order (normalization throws reject synchronously). -/
def collectBatch {ρ : Type} (fetchOne : Str → Except ApiError ρ) :
    List Str → Except ApiError (List (Str × Except ApiError ρ))
  | [] => .ok []
  | v :: rest =>
    match batchItem fetchOne v with
    | .error e => .error e
    | .ok entry =>
      match collectBatch fetchOne rest with
      | .error e => .error e
      | .ok entries => .ok (entry :: entries)

/-- The `results` and `errors` records. -/
abbrev BatchMaps (ρ : Type) := List (Str × ρ) × List (Str × ApiError)

/-- The `for (const result of batchResults)` loop: record each entry; with
`stopOnError` set, return right after recording the first error (the `true`
flag signals the early `return { results, errors }`). -/
def recordEntries {ρ : Type} (stopOnError : Bool) :
    List (Str × Except ApiError ρ) → BatchMaps ρ → BatchMaps ρ × Bool
  | [], acc => (acc, false)
  | (vid, .ok r) :: rest, acc => recordEntries stopOnError rest (mapSet acc.1 vid r, acc.2)
  | (vid, .error e) :: rest, acc =>
    let acc' := (acc.1, mapSet acc.2 vid e)
    if stopOnError then (acc', true) else recordEntries stopOnError rest acc'

/-- The batch group loop of `fetchTranscripts`. -/
def processBatches {ρ : Type} (fetchOne : Str → Except ApiError ρ) (stopOnError : Bool) :
    List (List Str) → BatchMaps ρ → Except ApiError (BatchMaps ρ)
  | [], acc => .ok acc
  | batch :: more, acc =>
    match collectBatch fetchOne batch with
    | .error e => .error e
    | .ok entries =>
      match recordEntries stopOnError entries acc with
      | (acc', true) => .ok acc'
      | (acc', false) => processBatches fetchOne stopOnError more acc'

/-- `YouTubeTranscriptApi.fetchTranscripts`. -/
def fetchTranscripts {ρ : Type} (fetchOne : Str → Except ApiError ρ) (stopOnError : Bool)
    (videoIds : List Str) : Except ApiError (BatchMaps ρ) :=
  processBatches fetchOne stopOnError (chunk3 videoIds) ([], [])

/-! ## Concrete witness data -/

/-- The manual Spanish track of the C3 witness catalog. -/
def esEntry : TranscriptEntry :=
  { videoId := chars "vid", url := some (chars "u1"), language := some (chars "Spanish"),
    languageCode := some (chars "es"), isGenerated := false, translationLanguages := [] }

/-- The generated English track of the C3 witness catalog. -/
def enEntry : TranscriptEntry :=
  { videoId := chars "vid", url := some (chars "u2"), language := some (chars "English"),
    languageCode := some (chars "en"), isGenerated := true, translationLanguages := [] }

/-- The manual-only-`es` + generated-`en` catalog of the spec's example. -/
def exampleCatalog : TranscriptList :=
  { videoId := chars "vid",
    manualTranscripts := [(some (chars "es"), esEntry)],
    generatedTranscripts := [(some (chars "en"), enEntry)],
    translationLanguages := [] }

/-- A well-formed manual English track. -/
def goodTrackEn : RawTrack :=
  { baseUrl := some (chars "u1"), name := some ⟨some (chars "English")⟩,
    languageCode := some (chars "en"), kind := none, isTranslatable := false }

/-- A well-formed generated German track. -/
def goodTrackDe : RawTrack :=
  { baseUrl := some (chars "u2"), name := some ⟨some (chars "German")⟩,
    languageCode := some (chars "de"), kind := some (chars "asr"), isTranslatable := false }

/-- A raw track record whose display-name object is missing. -/
def badTrack : RawTrack :=
  { baseUrl := some (chars "u3"), name := none,
    languageCode := some (chars "fr"), kind := none, isTranslatable := false }

/-- A track list with one malformed record between two well-formed ones. -/
def malformedCaptions : CaptionsData :=
  { translationLanguages := some [], captionTracks := some [goodTrackEn, badTrack, goodTrackDe] }

/-- The same track list with the malformed record removed. -/
def wellformedCaptions : CaptionsData :=
  { translationLanguages := some [], captionTracks := some [goodTrackEn, goodTrackDe] }

/-- A concrete fetch oracle for the batch witnesses: the id `bad` fails,
everything else succeeds. -/
def batchFetchStub : Str → Except ApiError ℕ := fun vid =>
  if vid = chars "bad" then .error (.videoUnavailable vid) else .ok 0

/-- Five identifiers whose first group of three contains the failure. -/
def batchIds : List Str := [chars "bad", chars "a", chars "b", chars "c", chars "d"]

/-- The unnormalizable identifier of the C10 witness: a well-formed URL on
an unrecognized host. -/
def strayUrl : Str := chars "https://example.com/x"

/-- A two-snippet transcript in which the first cue overlaps the second. -/
def overlapTranscript : Transcript :=
  { snippets := [{ text := chars "one", start := 0, duration := 5 },
                 { text := chars "two", start := 2, duration := 3 }],
    videoId := chars "vid", language := chars "English", languageCode := chars "en",
    isGenerated := false }

/-- An XML caption payload whose snippet body carries (YouTube-escaped) a
non-allow-listed `<font>` tag and an allow-listed `<i>` tag. -/
def fontTagPayload : Str :=
  chars "<text start=\"0\" dur=\"1\">hello \\u0026lt;font\\u0026gt;world\\u0026lt;/font\\u0026gt; \\u0026lt;i\\u0026gt;x\\u0026lt;/i\\u0026gt;</text>"

/-! ## Shared lemmas -/

theorem matchLit_self (p s : Str) : matchLit p (p ++ s) = some s := by
  induction p with
  | nil => rfl
  | cons c cs ih => simp [matchLit, ih]

theorem mapGet_mapSet_self {κ ν : Type} [DecidableEq κ] (m : List (κ × ν)) (k : κ) (v : ν) :
    mapGet (mapSet m k v) k = some v := by
  induction m with
  | nil => simp [mapSet, mapGet]
  | cons p rest ih =>
    by_cases h : p.1 = k
    · simp [mapSet, mapGet, h]
    · simp [mapSet, mapGet, h, ih]

theorem mapGet_mapSet_ne {κ ν : Type} [DecidableEq κ] (m : List (κ × ν)) (k k' : κ) (v : ν)
    (h : k' ≠ k) : mapGet (mapSet m k v) k' = mapGet m k' := by
  induction m with
  | nil => simp [mapSet, mapGet, Ne.symm h]
  | cons p rest ih =>
    by_cases hp : p.1 = k
    · simp [mapSet, mapGet, hp, Ne.symm h]
    · simp [mapSet, mapGet, hp, ih]

theorem mapGet_mapSet_isSome {κ ν : Type} [DecidableEq κ] (m : List (κ × ν)) (k k' : κ) (v : ν)
    (h : (mapGet m k').isSome) : (mapGet (mapSet m k v) k').isSome := by
  by_cases hk : k' = k
  · subst hk
    simp [mapGet_mapSet_self]
  · rwa [mapGet_mapSet_ne m k k' v hk]

/-! ## C4: extraction-guard classification -/

/-- C4: for every page HTML lacking the `"captions":` marker, the guard
fails with `IpBlocked` whenever the bot-challenge marker is present (never
`VideoUnavailable`); with the challenge marker absent it fails with
`VideoUnavailable` exactly when the `"playabilityStatus":` marker is also
absent, and with `TranscriptsDisabled` otherwise. -/
theorem extractCaptionsJson_marker_absent_classification {α : Type}
    (parseCaptions : Str → Except ApiError α) (html videoId : Str)
    (hno : containsSub (chars "\"captions\":") html = false) :
    (containsSub (chars "class=\"g-recaptcha\"") html = true →
      extractCaptionsJson parseCaptions html videoId = .error (.ipBlocked videoId)) ∧
    (containsSub (chars "class=\"g-recaptcha\"") html = false →
      (containsSub (chars "\"playabilityStatus\":") html = false →
        extractCaptionsJson parseCaptions html videoId = .error (.videoUnavailable videoId)) ∧
      (containsSub (chars "\"playabilityStatus\":") html = true →
        extractCaptionsJson parseCaptions html videoId = .error (.transcriptsDisabled videoId))) := by
  refine ⟨fun hre => ?_, fun hre => ⟨fun hpl => ?_, fun hpl => ?_⟩⟩
  · simp [extractCaptionsJson, hno, hre]
  · simp [extractCaptionsJson, hno, hre, hpl]
  · simp [extractCaptionsJson, hno, hre, hpl]

/-- Witness for C4 at a concrete bot-challenge page. -/
theorem extractCaptionsJson_marker_absent_classification_witness :
    extractCaptionsJson (fun _ => Except.ok (0 : ℕ))
      (chars "<html><div class=\"g-recaptcha\"></div></html>") (chars "vid") =
      .error (.ipBlocked (chars "vid")) :=
  (extractCaptionsJson_marker_absent_classification (fun _ => Except.ok (0 : ℕ))
    (chars "<html><div class=\"g-recaptcha\"></div></html>") (chars "vid")
    (by decide)).1 (by decide)

/-! ## C3: track-selection policy -/

theorem lookupFirst_of_first_hit (codes : List Str) (m : List (Option Str × TranscriptEntry)) :
    ∀ (i : ℕ) (hi : i < codes.length) (t : TranscriptEntry),
      mapGet m (some (codes.get ⟨i, hi⟩)) = some t →
      (∀ (j : ℕ) (hj : j < i), mapGet m (some (codes.get ⟨j, hj.trans hi⟩)) = none) →
      lookupFirst codes m = some t := by
  induction codes with
  | nil => intro i hi; simp at hi
  | cons c rest ih =>
    intro i hi t hget hbefore
    match i with
    | 0 =>
      simp at hget
      simp [lookupFirst, hget]
    | i' + 1 =>
      have h0 : mapGet m (some c) = none := hbefore 0 (Nat.succ_pos i')
      simp at hget
      simp [lookupFirst, h0]
      exact ih i' (Nat.lt_of_succ_lt_succ hi) t hget
        (fun j hj => hbefore (j + 1) (Nat.succ_lt_succ hj))

theorem lookupFirst_of_all_none (codes : List Str) (m : List (Option Str × TranscriptEntry))
    (h : ∀ c ∈ codes, mapGet m (some c) = none) : lookupFirst codes m = none := by
  induction codes with
  | nil => rfl
  | cons c rest ih =>
    have h0 : mapGet m (some c) = none := h c (List.mem_cons_self c rest)
    simp [lookupFirst, h0]
    exact ih fun d hd => h d (List.mem_cons_of_mem c hd)

/-- C3: `findTranscript` returns the manual track of the first preference
code present in the manual mapping; a generated track is returned only when
no code of the whole list hits the manual mapping, and if no code hits
either mapping it fails with `NoTranscriptFound` carrying the requested
language list. -/
theorem findTranscript_policy (tl : TranscriptList) (codes : List Str) :
    (∀ (i : ℕ) (hi : i < codes.length) (t : TranscriptEntry),
      mapGet tl.manualTranscripts (some (codes.get ⟨i, hi⟩)) = some t →
      (∀ (j : ℕ) (hj : j < i),
        mapGet tl.manualTranscripts (some (codes.get ⟨j, hj.trans hi⟩)) = none) →
      tl.findTranscript codes = .ok t) ∧
    ((∀ c ∈ codes, mapGet tl.manualTranscripts (some c) = none) →
      ∀ (i : ℕ) (hi : i < codes.length) (t : TranscriptEntry),
        mapGet tl.generatedTranscripts (some (codes.get ⟨i, hi⟩)) = some t →
        (∀ (j : ℕ) (hj : j < i),
          mapGet tl.generatedTranscripts (some (codes.get ⟨j, hj.trans hi⟩)) = none) →
        tl.findTranscript codes = .ok t) ∧
    ((∀ c ∈ codes, mapGet tl.manualTranscripts (some c) = none ∧
        mapGet tl.generatedTranscripts (some c) = none) →
      tl.findTranscript codes = .error (.noTranscriptFound tl.videoId codes)) := by
  refine ⟨?_, ?_, ?_⟩
  · intro i hi t hget hbefore
    have hm := lookupFirst_of_first_hit codes tl.manualTranscripts i hi t hget hbefore
    simp [TranscriptList.findTranscript, findTranscriptInMap, hm]
  · intro hman i hi t hget hbefore
    have hm := lookupFirst_of_all_none codes tl.manualTranscripts hman
    have hg := lookupFirst_of_first_hit codes tl.generatedTranscripts i hi t hget hbefore
    simp [TranscriptList.findTranscript, findTranscriptInMap, hm, hg]
  · intro hboth
    have hm := lookupFirst_of_all_none codes tl.manualTranscripts fun c hc => (hboth c hc).1
    have hg := lookupFirst_of_all_none codes tl.generatedTranscripts fun c hc => (hboth c hc).2
    simp [TranscriptList.findTranscript, findTranscriptInMap, hm, hg]

/-- Witness for C3: preference `["en", "es"]` against the example catalog
selects the manual `es` track. -/
theorem findTranscript_policy_witness :
    exampleCatalog.findTranscript [chars "en", chars "es"] = .ok esEntry := by
  refine (findTranscript_policy exampleCatalog [chars "en", chars "es"]).1 1 Nat.one_lt_two
    esEntry (by decide) ?_
  intro j hj
  match j, hj with
  | 0, _ =>
    show mapGet exampleCatalog.manualTranscripts (some (chars "en")) = none
    decide

/-! ## C2: catalog building on malformed tracks -/

theorem buildTranslationLanguages_ok (L : List RawTranslationLanguage)
    (h : ∀ l ∈ L, l.languageName.isSome) :
    ∃ ts, buildTranslationLanguages L = .ok ts := by
  induction L with
  | nil => exact ⟨[], rfl⟩
  | cons l rest ih =>
    obtain ⟨nm, hnm⟩ := Option.isSome_iff_exists.mp (h l (List.mem_cons_self l rest))
    obtain ⟨ts, hts⟩ := ih fun d hd => h d (List.mem_cons_of_mem l hd)
    refine ⟨{ languageName := nm.simpleText, languageCode := l.languageCode } :: ts, ?_⟩
    simp [buildTranslationLanguages, hnm, hts]

theorem buildTracks_ok (videoId : Str) (targets : List TranslationLanguage)
    (tracks : List RawTrack) (h : ∀ t ∈ tracks, t.name.isSome) :
    ∀ man gen, ∃ maps, buildTracks videoId targets tracks man gen = .ok maps := by
  induction tracks with
  | nil => exact fun man gen => ⟨(man, gen), rfl⟩
  | cons track rest ih =>
    intro man gen
    obtain ⟨nm, hnm⟩ := Option.isSome_iff_exists.mp (h track (List.mem_cons_self track rest))
    have ih' := ih fun d hd => h d (List.mem_cons_of_mem track hd)
    by_cases hk : track.kind = some (chars "asr")
    · simp only [buildTracks, hnm, hk, if_pos]
      exact ih' _ _
    · simp only [buildTracks, hnm, hk, if_neg, ite_false]
      exact ih' _ _

theorem buildTracks_typeError (videoId : Str) (targets : List TranslationLanguage)
    (tracks : List RawTrack) (h : ∃ t ∈ tracks, t.name = none) :
    ∀ man gen, buildTracks videoId targets tracks man gen = .error .typeError := by
  induction tracks with
  | nil => simp at h
  | cons track rest ih =>
    intro man gen
    rcases h with ⟨t, ht, hname⟩
    rcases List.mem_cons.mp ht with rfl | hrest
    · simp [buildTracks, hname]
    · cases hn : track.name with
      | none => simp [buildTracks, hn]
      | some nm =>
        have ih' := ih ⟨t, hrest, hname⟩
        by_cases hk : track.kind = some (chars "asr") <;> simp [buildTracks, hn, hk, ih']

/-- Counterexample to C2: on a track list whose middle record is missing its
display-name object, `TranscriptList.build` throws a `TypeError` instead of
skipping the record and cataloguing the rest. -/
theorem build_throws_on_missing_name :
    TranscriptList.build (chars "vid") malformedCaptions = .error .typeError := by decide

/-- C2 (amended): `TranscriptList.build` catalogues the tracks when every
raw record carries its display-name object, but a record missing that
object makes the whole build throw a `TypeError`; it is not skipped. -/
theorem build_ok_or_typeError (videoId : Str) (cj : CaptionsData)
    (hlang : ∀ l ∈ cj.translationLanguages.getD [], l.languageName.isSome) :
    ((∀ t ∈ cj.captionTracks.getD [], t.name.isSome) →
      ∃ tl, TranscriptList.build videoId cj = .ok tl) ∧
    ((∃ t ∈ cj.captionTracks.getD [], t.name = none) →
      TranscriptList.build videoId cj = .error .typeError) := by
  obtain ⟨ts, hts⟩ := buildTranslationLanguages_ok _ hlang
  constructor
  · intro hnames
    obtain ⟨maps, hm⟩ := buildTracks_ok videoId ts _ hnames [] []
    exact ⟨{ videoId := videoId, manualTranscripts := maps.1, generatedTranscripts := maps.2,
             translationLanguages := ts }, by simp [TranscriptList.build, hts, hm]⟩
  · intro hbad
    simp [TranscriptList.build, hts, buildTracks_typeError videoId ts _ hbad [] []]

/-- Witness for C2 (amended): the well-formed track list builds a catalog. -/
theorem build_ok_or_typeError_witness :
    ∃ tl, TranscriptList.build (chars "vid") wellformedCaptions = .ok tl :=
  (build_ok_or_typeError (chars "vid") wellformedCaptions (by decide)).1 (by decide)

/-! ## C6: fallback failure propagates the primary error -/

/-- C6: when the primary YouTube path fails with error `e` and the Invidious
fallback is then consulted (it was not tried first, and the catch-time
enabled/client check passes) and itself fails, `fetchTranscript` rejects
with the original primary error `e`, not the fallback's own error. -/
theorem fetchTranscriptFlow_keeps_primary_error {ε ρ : Type}
    (enabledStart clientStart enabledCatch clientCatch : Bool)
    (invidiousFirst : Except ε ρ) (e e' : ε)
    (hfirst : (enabledStart && clientStart) = false)
    (hcatch : (enabledCatch && clientCatch) = true) :
    fetchTranscriptFlow enabledStart clientStart enabledCatch clientCatch
      invidiousFirst (.error e) (.error e') = .error e := by
  simp [fetchTranscriptFlow, hfirst, hcatch]

/-- Witness for C6 at concrete outcomes: the caller observes the primary
`VideoUnavailable`, not the fallback's `IpBlocked`. -/
theorem fetchTranscriptFlow_keeps_primary_error_witness :
    fetchTranscriptFlow false false true true (.error ApiError.typeError)
      (.error (.videoUnavailable (chars "v"))) (.error (.ipBlocked (chars "v")))
      = (.error (.videoUnavailable (chars "v")) : Except ApiError ℕ) :=
  fetchTranscriptFlow_keeps_primary_error false false true true (.error ApiError.typeError)
    (.videoUnavailable (chars "v")) (.ipBlocked (chars "v")) rfl rfl

/-! ## C9 and C10: batch resolution -/

theorem chunk3_flatten {α : Type} : ∀ l : List α, (chunk3 l).flatten = l
  | [] => rfl
  | [_] => rfl
  | [_, _] => rfl
  | a :: b :: c :: rest => by simp [chunk3, List.flatten, chunk3_flatten rest]

theorem batchItem_ok_videoId {ρ : Type} (fetchOne : Str → Except ApiError ρ) (v : Str)
    (p : Str × Except ApiError ρ) (h : batchItem fetchOne v = .ok p) :
    getVideoId v = .ok p.1 := by
  cases hg : getVideoId v with
  | error e =>
    have hb : batchItem fetchOne v = .error e := by simp [batchItem, hg]
    rw [hb] at h
    exact absurd h (by simp)
  | ok vid =>
    cases hf : fetchOne vid with
    | ok r =>
      have hb : batchItem fetchOne v = .ok (vid, .ok r) := by simp [batchItem, hg, hf]
      rw [hb] at h
      simp only [Except.ok.injEq] at h
      rw [← h]
    | error e =>
      have hb : batchItem fetchOne v = .ok (vid, .error e) := by simp [batchItem, hg, hf]
      rw [hb] at h
      simp only [Except.ok.injEq] at h
      rw [← h]

theorem collectBatch_ok_mem {ρ : Type} (fetchOne : Str → Except ApiError ρ)
    (batch : List Str) (entries : List (Str × Except ApiError ρ))
    (h : collectBatch fetchOne batch = .ok entries) :
    ∀ v ∈ batch, ∃ vid out, getVideoId v = .ok vid ∧ (vid, out) ∈ entries := by
  induction batch generalizing entries with
  | nil => intro v hv; simp at hv
  | cons w rest ih =>
    intro v hv
    unfold collectBatch at h
    cases hb : batchItem fetchOne w with
    | error e => rw [hb] at h; exact absurd h (by simp)
    | ok entry =>
      rw [hb] at h
      cases hc : collectBatch fetchOne rest with
      | error e => rw [hc] at h; exact absurd h (by simp)
      | ok es =>
        rw [hc] at h
        simp only [Except.ok.injEq] at h
        subst h
        rcases List.mem_cons.mp hv with rfl | hrest
        · refine ⟨entry.1, entry.2, batchItem_ok_videoId fetchOne v entry hb, ?_⟩
          simp
        · obtain ⟨vid, out, hg, hm⟩ := ih es hc v hrest
          exact ⟨vid, out, hg, List.mem_cons_of_mem _ hm⟩

theorem recordEntries_false_no_stop {ρ : Type} (entries : List (Str × Except ApiError ρ)) :
    ∀ acc : BatchMaps ρ, (recordEntries false entries acc).2 = false := by
  induction entries with
  | nil => intro acc; rfl
  | cons p rest ih =>
    intro acc
    rcases p with ⟨vid, out⟩
    cases out with
    | ok r => simp only [recordEntries]; exact ih _
    | error e => simp only [recordEntries, if_neg Bool.false_ne_true]; exact ih _

theorem recordEntries_mono {ρ : Type} (so : Bool) (entries : List (Str × Except ApiError ρ)) :
    ∀ (acc : BatchMaps ρ) (k : Str),
      (mapGet acc.1 k).isSome ∨ (mapGet acc.2 k).isSome →
      (mapGet (recordEntries so entries acc).1.1 k).isSome ∨
        (mapGet (recordEntries so entries acc).1.2 k).isSome := by
  induction entries with
  | nil => intro acc k h; exact h
  | cons p rest ih =>
    intro acc k h
    rcases p with ⟨vid, out⟩
    cases out with
    | ok r =>
      simp only [recordEntries]
      exact ih _ k (h.imp (mapGet_mapSet_isSome acc.1 vid k r) id)
    | error e =>
      cases so with
      | true =>
        simp only [recordEntries, if_pos rfl]
        exact h.imp id (mapGet_mapSet_isSome acc.2 vid k e)
      | false =>
        simp only [recordEntries, if_neg Bool.false_ne_true]
        exact ih _ k (h.imp id (mapGet_mapSet_isSome acc.2 vid k e))

theorem recordEntries_false_mem {ρ : Type} (entries : List (Str × Except ApiError ρ)) :
    ∀ (acc : BatchMaps ρ) (vid : Str) (out : Except ApiError ρ), (vid, out) ∈ entries →
      (mapGet (recordEntries false entries acc).1.1 vid).isSome ∨
        (mapGet (recordEntries false entries acc).1.2 vid).isSome := by
  induction entries with
  | nil => intro acc vid out h; simp at h
  | cons p rest ih =>
    intro acc vid out h
    rcases List.mem_cons.mp h with heq | hrest
    · subst heq
      cases out with
      | ok r =>
        simp only [recordEntries]
        exact recordEntries_mono false rest _ vid (Or.inl (by simp [mapGet_mapSet_self]))
      | error e =>
        simp only [recordEntries, if_neg Bool.false_ne_true]
        exact recordEntries_mono false rest _ vid (Or.inr (by simp [mapGet_mapSet_self]))
    · rcases p with ⟨vid', out'⟩
      cases out' with
      | ok r => simp only [recordEntries]; exact ih _ vid out hrest
      | error e =>
        simp only [recordEntries, if_neg Bool.false_ne_true]
        exact ih _ vid out hrest

theorem processBatches_mono {ρ : Type} (fetchOne : Str → Except ApiError ρ)
    (bs : List (List Str)) :
    ∀ (acc maps : BatchMaps ρ) (k : Str),
      processBatches fetchOne false bs acc = .ok maps →
      (mapGet acc.1 k).isSome ∨ (mapGet acc.2 k).isSome →
      (mapGet maps.1 k).isSome ∨ (mapGet maps.2 k).isSome := by
  induction bs with
  | nil =>
    intro acc maps k h hk
    simp only [processBatches, Except.ok.injEq] at h
    exact h ▸ hk
  | cons batch more ih =>
    intro acc maps k h hk
    unfold processBatches at h
    cases hc : collectBatch fetchOne batch with
    | error e => rw [hc] at h; exact absurd h (by simp)
    | ok entries =>
      rw [hc] at h
      simp only at h
      rcases hre : recordEntries false entries acc with ⟨acc', stopped⟩
      have hstop := recordEntries_false_no_stop entries acc
      rw [hre] at hstop
      simp only at hstop
      subst hstop
      rw [hre] at h
      simp only at h
      have hk' := recordEntries_mono false entries acc k hk
      rw [hre] at hk'
      exact ih acc' maps k h hk'

theorem processBatches_covers {ρ : Type} (fetchOne : Str → Except ApiError ρ)
    (bs : List (List Str)) :
    ∀ (acc maps : BatchMaps ρ),
      processBatches fetchOne false bs acc = .ok maps →
      ∀ v, (∃ b ∈ bs, v ∈ b) →
        ∃ vid, getVideoId v = .ok vid ∧
          ((mapGet maps.1 vid).isSome ∨ (mapGet maps.2 vid).isSome) := by
  induction bs with
  | nil =>
    rintro acc maps _ v ⟨b, hb, _⟩
    simp at hb
  | cons batch more ih =>
    rintro acc maps h v ⟨b, hb, hv⟩
    unfold processBatches at h
    cases hc : collectBatch fetchOne batch with
    | error e => rw [hc] at h; exact absurd h (by simp)
    | ok entries =>
      rw [hc] at h
      simp only at h
      rcases hre : recordEntries false entries acc with ⟨acc', stopped⟩
      have hstop := recordEntries_false_no_stop entries acc
      rw [hre] at hstop
      simp only at hstop
      subst hstop
      rw [hre] at h
      simp only at h
      rcases List.mem_cons.mp hb with rfl | hmore
      · obtain ⟨vid, out, hg, hmem⟩ := collectBatch_ok_mem fetchOne b entries hc v hv
        refine ⟨vid, hg, processBatches_mono fetchOne more acc' maps vid h ?_⟩
        have hsome := recordEntries_false_mem entries acc vid out hmem
        rw [hre] at hsome
        exact hsome
      · exact ih acc' maps h v ⟨b, hmore, hv⟩

/-- C9: when `fetchTranscripts` with `stopOnError = false` returns, the
returned object has a results entry or an errors entry (keyed by the
normalized id) for every identifier of the input list, even when some
identifier in some group failed to fetch. -/
theorem fetchTranscripts_covers_all {ρ : Type} (fetchOne : Str → Except ApiError ρ)
    (videoIds : List Str) (maps : BatchMaps ρ)
    (h : fetchTranscripts fetchOne false videoIds = .ok maps) :
    ∀ v ∈ videoIds, ∃ vid, getVideoId v = .ok vid ∧
      ((mapGet maps.1 vid).isSome ∨ (mapGet maps.2 vid).isSome) := by
  intro v hv
  refine processBatches_covers fetchOne (chunk3 videoIds) ([], []) maps h v ?_
  have hmem : v ∈ (chunk3 videoIds).flatten := by rw [chunk3_flatten]; exact hv
  exact List.mem_flatten.mp hmem

/-- Witness for C9: with 5 identifiers in groups of 3 and a failure in the
first group, the identifier `d` of the last group still gets an entry. -/
theorem fetchTranscripts_covers_all_witness :
    ∃ vid, getVideoId (chars "d") = .ok vid ∧
      ((mapGet [(chars "a", (0 : ℕ)), (chars "b", 0), (chars "c", 0), (chars "d", 0)]
          vid).isSome ∨
        (mapGet [(chars "bad", ApiError.videoUnavailable (chars "bad"))] vid).isSome) :=
  fetchTranscripts_covers_all batchFetchStub batchIds
    ([(chars "a", 0), (chars "b", 0), (chars "c", 0), (chars "d", 0)],
      [(chars "bad", ApiError.videoUnavailable (chars "bad"))])
    (by decide) (chars "d") (by decide)

theorem batchItem_of_ok {ρ : Type} (fetchOne : Str → Except ApiError ρ) (w vid : Str)
    (hg : getVideoId w = .ok vid) : ∃ p, batchItem fetchOne w = .ok p := by
  cases hf : fetchOne vid with
  | ok r => exact ⟨(vid, .ok r), by simp [batchItem, hg, hf]⟩
  | error e => exact ⟨(vid, .error e), by simp [batchItem, hg, hf]⟩

theorem batchItem_of_error {ρ : Type} (fetchOne : Str → Except ApiError ρ) (w : Str)
    (e : ApiError) (hg : getVideoId w = .error e) : batchItem fetchOne w = .error e := by
  simp [batchItem, hg]

theorem collectBatch_ok_of_all {ρ : Type} (fetchOne : Str → Except ApiError ρ)
    (batch : List Str) (h : ∀ w ∈ batch, ∃ vid, getVideoId w = .ok vid) :
    ∃ entries, collectBatch fetchOne batch = .ok entries := by
  induction batch with
  | nil => exact ⟨[], rfl⟩
  | cons w rest ih =>
    obtain ⟨vid, hg⟩ := h w (List.mem_cons_self w rest)
    obtain ⟨p, hp⟩ := batchItem_of_ok fetchOne w vid hg
    obtain ⟨entries, hc⟩ := ih fun u hu => h u (List.mem_cons_of_mem w hu)
    exact ⟨p :: entries, by simp [collectBatch, hp, hc]⟩

theorem collectBatch_first_error {ρ : Type} (fetchOne : Str → Except ApiError ρ)
    (batch : List Str) (v : Str) (e : ApiError) (hv : v ∈ batch)
    (he : getVideoId v = .error e)
    (hok : ∀ w ∈ batch, w ≠ v → ∃ vid, getVideoId w = .ok vid) :
    collectBatch fetchOne batch = .error e := by
  induction batch with
  | nil => simp at hv
  | cons w rest ih =>
    by_cases hw : w = v
    · subst hw
      simp [collectBatch, batchItem_of_error fetchOne w e he]
    · obtain ⟨vid, hg⟩ := hok w (List.mem_cons_self w rest) hw
      obtain ⟨p, hp⟩ := batchItem_of_ok fetchOne w vid hg
      have hrest : v ∈ rest := by
        rcases List.mem_cons.mp hv with heq | hr
        · exact absurd heq.symm hw
        · exact hr
      have hcr := ih hrest fun u hu hne => hok u (List.mem_cons_of_mem w hu) hne
      simp [collectBatch, hp, hcr]

theorem processBatches_first_error {ρ : Type} (fetchOne : Str → Except ApiError ρ)
    (bs : List (List Str)) :
    ∀ (acc : BatchMaps ρ) (v : Str) (e : ApiError),
      (∃ b ∈ bs, v ∈ b) → getVideoId v = .error e →
      (∀ w, (∃ b ∈ bs, w ∈ b) → w ≠ v → ∃ vid, getVideoId w = .ok vid) →
      processBatches fetchOne false bs acc = .error e := by
  induction bs with
  | nil => rintro acc v e ⟨b, hb, _⟩; simp at hb
  | cons batch more ih =>
    rintro acc v e ⟨b, hb, hv⟩ he hok
    by_cases hvb : v ∈ batch
    · have hc := collectBatch_first_error fetchOne batch v e hvb he
        fun w hw hne => hok w ⟨batch, List.mem_cons_self batch more, hw⟩ hne
      simp [processBatches, hc]
    · obtain ⟨entries, hc⟩ := collectBatch_ok_of_all fetchOne batch fun w hw =>
        hok w ⟨batch, List.mem_cons_self batch more, hw⟩ fun hh => hvb (hh ▸ hw)
      have hbmore : b ∈ more := by
        rcases List.mem_cons.mp hb with heq | hm
        · exact absurd (heq ▸ hv) hvb
        · exact hm
      unfold processBatches
      rw [hc]
      simp only
      rcases hre : recordEntries false entries acc with ⟨acc', stopped⟩
      have hstop := recordEntries_false_no_stop entries acc
      rw [hre] at hstop
      simp only at hstop
      subst hstop
      refine ih acc' v e ⟨b, hbmore, hv⟩ he fun w hw hne => ?_
      obtain ⟨b2, hb2, hwb2⟩ := hw
      exact hok w ⟨b2, List.mem_cons_of_mem batch hb2, hwb2⟩ hne

/-- C10: when some identifier of the batch cannot be normalized
(`getVideoId` throws on it), `fetchTranscripts` with `stopOnError = false`
rejects with that normalization error instead of recording an entry in the
errors map, because the per-item `catch` handler calls `getVideoId` a
second time on the same input. -/
theorem fetchTranscripts_rejects_on_normalization_error {ρ : Type}
    (fetchOne : Str → Except ApiError ρ) (videoIds : List Str) (v : Str) (e : ApiError)
    (hv : v ∈ videoIds) (he : getVideoId v = .error e)
    (hok : ∀ w ∈ videoIds, w ≠ v → ∃ vid, getVideoId w = .ok vid) :
    fetchTranscripts fetchOne false videoIds = .error e := by
  refine processBatches_first_error fetchOne (chunk3 videoIds) ([], []) v e ?_ he ?_
  · exact List.mem_flatten.mp (by rw [chunk3_flatten]; exact hv)
  · intro w hw hne
    refine hok w ?_ hne
    rw [← chunk3_flatten videoIds]
    exact List.mem_flatten.mpr hw

/-- Witness for C10: a batch containing one unnormalizable identifier
rejects with its normalization error; no error-map entry is produced. -/
theorem fetchTranscripts_rejects_on_normalization_error_witness :
    fetchTranscripts (fun _ => Except.ok (0 : ℕ)) false
      [chars "ok1", strayUrl, chars "ok2"] =
      .error (.genericError (chars "Could not extract video ID from: " ++ strayUrl)) := by
  refine fetchTranscripts_rejects_on_normalization_error (fun _ => Except.ok (0 : ℕ))
    [chars "ok1", strayUrl, chars "ok2"] strayUrl
    (.genericError (chars "Could not extract video ID from: " ++ strayUrl))
    (by decide) (by decide) ?_
  intro w hw hne
  fin_cases hw
  · exact ⟨chars "ok1", by decide⟩
  · exact absurd rfl hne
  · exact ⟨chars "ok2", by decide⟩

/-! ## C5: SRT/WebVTT end-time clipping -/

theorem textBasedLines_getD (fmtTs : ℤ → ℤ → ℤ → ℤ → Str)
    (fmtLine : ℕ → Str → TranscriptSnippet → Str) (snips : List TranscriptSnippet)
    (i : ℕ) (hi : i < snips.length) :
    (textBasedLines fmtTs fmtLine snips).getD i [] =
      fmtLine i (cueTimeText fmtTs snips i (snips.getD i default)) (snips.getD i default) := by
  unfold textBasedLines
  rw [List.getD_eq_getElem _ _ (by simpa using hi), List.getElem_map, List.getElem_enum,
    List.getD_eq_getElem _ _ hi]

theorem cueTimeText_eq_min (fmtTs : ℤ → ℤ → ℤ → ℤ → Str) (snips : List TranscriptSnippet)
    (i : ℕ) (hi : i < snips.length) (line : TranscriptSnippet) :
    cueTimeText fmtTs snips i line =
      secondsToTimestamp fmtTs line.start ++ chars " --> " ++
        secondsToTimestamp fmtTs
          (if i + 1 < snips.length
            then min (line.start + line.duration) ((snips.getD (i + 1) default).start)
            else line.start + line.duration) := by
  unfold cueTimeText
  dsimp only
  by_cases h2 : i + 1 < snips.length
  · have h1 : i < snips.length - 1 := by omega
    rw [if_pos h1, if_pos h2]
    rcases lt_or_le ((snips.getD (i + 1) default).start) (line.start + line.duration) with
      hlt | hle
    · rw [if_pos hlt, min_eq_right hlt.le]
    · rw [if_neg (not_lt.mpr hle), min_eq_left hle]
  · have h1 : ¬i < snips.length - 1 := by omega
    rw [if_neg h1, if_neg h2, if_neg (lt_irrefl _)]

/-- C5: the cue line that the SRT and WebVTT formatters render at position
`i` carries the end time `min(start_i + duration_i, start_{i+1})` when a
following snippet exists, and `start_i + duration_i` for the final snippet;
the formatters' outputs are exactly these lines joined by their headers. -/
theorem formatters_clip_cue_end (t : Transcript) (i : ℕ) (hi : i < t.snippets.length) :
    ((textBasedLines srtTimestamp srtLine t.snippets).getD i [] =
      srtLine i
        (secondsToTimestamp srtTimestamp (t.snippets.getD i default).start ++ chars " --> " ++
          secondsToTimestamp srtTimestamp
            (if i + 1 < t.snippets.length
              then min ((t.snippets.getD i default).start + (t.snippets.getD i default).duration)
                ((t.snippets.getD (i + 1) default).start)
              else (t.snippets.getD i default).start + (t.snippets.getD i default).duration))
        (t.snippets.getD i default)) ∧
    ((textBasedLines vttTimestamp vttLine t.snippets).getD i [] =
      vttLine i
        (secondsToTimestamp vttTimestamp (t.snippets.getD i default).start ++ chars " --> " ++
          secondsToTimestamp vttTimestamp
            (if i + 1 < t.snippets.length
              then min ((t.snippets.getD i default).start + (t.snippets.getD i default).duration)
                ((t.snippets.getD (i + 1) default).start)
              else (t.snippets.getD i default).start + (t.snippets.getD i default).duration))
        (t.snippets.getD i default)) ∧
    srtFormat t = srtHeader (textBasedLines srtTimestamp srtLine t.snippets) ∧
    vttFormat t = vttHeader (textBasedLines vttTimestamp vttLine t.snippets) := by
  refine ⟨?_, ?_, rfl, rfl⟩
  · rw [textBasedLines_getD srtTimestamp srtLine t.snippets i hi,
      cueTimeText_eq_min srtTimestamp t.snippets i hi]
  · rw [textBasedLines_getD vttTimestamp vttLine t.snippets i hi,
      cueTimeText_eq_min vttTimestamp t.snippets i hi]

/-- Witness for C5 at the first cue of the overlapping transcript. -/
theorem formatters_clip_cue_end_witness :
    (textBasedLines srtTimestamp srtLine overlapTranscript.snippets).getD 0 [] =
      srtLine 0
        (secondsToTimestamp srtTimestamp (overlapTranscript.snippets.getD 0 default).start ++
          chars " --> " ++
          secondsToTimestamp srtTimestamp
            (if 0 + 1 < overlapTranscript.snippets.length
              then min ((overlapTranscript.snippets.getD 0 default).start +
                  (overlapTranscript.snippets.getD 0 default).duration)
                ((overlapTranscript.snippets.getD (0 + 1) default).start)
              else (overlapTranscript.snippets.getD 0 default).start +
                (overlapTranscript.snippets.getD 0 default).duration))
        (overlapTranscript.snippets.getD 0 default) :=
  (formatters_clip_cue_end overlapTranscript 0 (by norm_num [overlapTranscript])).1

/-! ## C7: timestamp field widths -/

theorem natToDecAux_small (fuel n : ℕ) (hf : 1 ≤ fuel) (hn : n < 10) :
    natToDecAux fuel n = [Char.ofNat (48 + n)] := by
  match fuel, hf with
  | f + 1, _ => simp [natToDecAux, hn]

theorem natToDecAux_len_le_two (fuel m : ℕ) (hf : 2 ≤ fuel) (hm : m < 100) :
    (natToDecAux fuel m).length ≤ 2 := by
  match fuel, hf with
  | f + 1, hf =>
    by_cases h1 : m < 10
    · simp [natToDecAux, h1]
    · have hstep : natToDecAux (f + 1) m = natToDecAux f (m / 10) ++ [Char.ofNat (48 + m % 10)] := by
        simp [natToDecAux, h1]
      rw [hstep, List.length_append,
        natToDecAux_small f (m / 10) (by omega) (by omega)]
      simp

theorem natToDec_length_le_two (n : ℕ) (h : n < 100) : (natToDec n).length ≤ 2 := by
  by_cases h1 : n < 10
  · rw [natToDec, natToDecAux_small (n + 1) n (by omega) h1]
    simp
  · exact natToDecAux_len_le_two (n + 1) n (by omega) h

theorem natToDec_length_le_three (n : ℕ) (h : n < 1000) : (natToDec n).length ≤ 3 := by
  by_cases h2 : n < 100
  · exact (natToDec_length_le_two n h2).trans (by norm_num)
  · have h1 : ¬n < 10 := by omega
    have hstep : natToDec n = natToDecAux n (n / 10) ++ [Char.ofNat (48 + n % 10)] := by
      simp [natToDec, natToDecAux, h1]
    rw [hstep, List.length_append]
    have := natToDecAux_len_le_two n (n / 10) (by omega) (by omega)
    simp only [List.length_singleton]
    omega

theorem natToDec_1000 : natToDec 1000 = chars "1000" := by decide

theorem padNum_length_eq (v : ℤ) (hv : 0 ≤ v) (w : ℕ)
    (hlen : (natToDec v.toNat).length ≤ w) : (padNum v w).length = w := by
  rw [padNum, intToDec, if_neg (not_lt.mpr hv), jsPadStart, List.length_append,
    List.length_replicate]
  omega

theorem padNum_length_ge (v : ℤ) (w : ℕ) : w ≤ (padNum v w).length := by
  rw [padNum, jsPadStart, List.length_append, List.length_replicate]
  omega

theorem Int_floor_eq_of (q : ℚ) (n : ℤ) (h1 : (n : ℚ) ≤ q) (h2 : q < n + 1) : ⌊q⌋ = n :=
  Int.floor_eq_iff.mpr ⟨h1, h2⟩

theorem jsMod_bounds (t d : ℚ) (ht : 0 ≤ t) (hd : 0 < d) :
    0 ≤ jsMod t d ∧ jsMod t d < d := by
  have h0 : 0 ≤ t / d := div_nonneg ht hd.le
  have hdne : d ≠ 0 := ne_of_gt hd
  have heq : jsMod t d = d * Int.fract (t / d) := by
    rw [jsMod, jsTrunc, if_pos h0, Int.fract, mul_sub, mul_comm d (t / d),
      div_mul_cancel₀ t hdne]
  rw [heq]
  constructor
  · exact mul_nonneg hd.le (Int.fract_nonneg _)
  · calc d * Int.fract (t / d) < d * 1 := (mul_lt_mul_left hd).mpr (Int.fract_lt_one _)
      _ = d := mul_one d

theorem srt_ts_3600 : secondsToTimestamp srtTimestamp 3600 = chars "01:00:00,000" := by
  have e1 : ⌊(3600:ℚ)/3600⌋ = 1 := Int_floor_eq_of _ 1 (by norm_num) (by norm_num)
  have em1 : jsMod (3600:ℚ) 3600 = 0 := by
    rw [jsMod, jsTrunc, if_pos (by norm_num : (0:ℚ) ≤ 3600/3600), e1]
    norm_num
  have e4 : ⌊(3600:ℚ)⌋ = 3600 := Int_floor_eq_of _ 3600 (by norm_num) (by norm_num)
  simp only [secondsToTimestamp, divmod, em1, e1, e4]
  have em2 : jsMod (0:ℚ) 60 = 0 := by rw [jsMod, jsTrunc]; norm_num
  have ehalf : ((3600:ℚ) - ((3600:ℤ):ℚ)) * 1000 + 1/2 = 1/2 := by push_cast; norm_num
  have er : jsRound (((3600:ℚ) - ((3600:ℤ):ℚ)) * 1000) = 0 := by
    rw [jsRound, ehalf]
    exact Int_floor_eq_of _ 0 (by norm_num) (by norm_num)
  simp only [em2, er, Int.floor_intCast, zero_div, Int.floor_zero]
  decide

theorem vtt_ts_3600 : secondsToTimestamp vttTimestamp 3600 = chars "01:00:00.000" := by
  have e1 : ⌊(3600:ℚ)/3600⌋ = 1 := Int_floor_eq_of _ 1 (by norm_num) (by norm_num)
  have em1 : jsMod (3600:ℚ) 3600 = 0 := by
    rw [jsMod, jsTrunc, if_pos (by norm_num : (0:ℚ) ≤ 3600/3600), e1]
    norm_num
  have e4 : ⌊(3600:ℚ)⌋ = 3600 := Int_floor_eq_of _ 3600 (by norm_num) (by norm_num)
  simp only [secondsToTimestamp, divmod, em1, e1, e4]
  have em2 : jsMod (0:ℚ) 60 = 0 := by rw [jsMod, jsTrunc]; norm_num
  have ehalf : ((3600:ℚ) - ((3600:ℤ):ℚ)) * 1000 + 1/2 = 1/2 := by push_cast; norm_num
  have er : jsRound (((3600:ℚ) - ((3600:ℤ):ℚ)) * 1000) = 0 := by
    rw [jsRound, ehalf]
    exact Int_floor_eq_of _ 0 (by norm_num) (by norm_num)
  simp only [em2, er, Int.floor_intCast, zero_div, Int.floor_zero]
  decide

/-- Counterexample to C7: at `time = 0.9995` seconds the rounded millisecond
value is `1000`, and `padStart(3, '0')` does not truncate, so the
millisecond field has four digits, not exactly three (the rendering is 13
characters instead of 12). -/
theorem timestamp_ms_four_digits :
    secondsToTimestamp srtTimestamp (1999/2000) = chars "00:00:00,1000" ∧
    secondsToTimestamp vttTimestamp (1999/2000) = chars "00:00:00.1000" ∧
    (secondsToTimestamp srtTimestamp (1999/2000)).length = 13 := by
  have e1 : ⌊(1999/2000:ℚ)/3600⌋ = 0 := Int_floor_eq_of _ 0 (by norm_num) (by norm_num)
  have em1 : jsMod (1999/2000:ℚ) 3600 = 1999/2000 := by
    rw [jsMod, jsTrunc, if_pos (by norm_num : (0:ℚ) ≤ (1999/2000:ℚ)/3600), e1]
    norm_num
  have e2 : ⌊(1999/2000:ℚ)/60⌋ = 0 := Int_floor_eq_of _ 0 (by norm_num) (by norm_num)
  have em2 : jsMod (1999/2000:ℚ) 60 = 1999/2000 := by
    rw [jsMod, jsTrunc, if_pos (by norm_num : (0:ℚ) ≤ (1999/2000:ℚ)/60), e2]
    norm_num
  have e3 : ⌊(1999/2000:ℚ)⌋ = 0 := Int_floor_eq_of _ 0 (by norm_num) (by norm_num)
  have ehalf : ((1999/2000:ℚ) - ((0:ℤ):ℚ)) * 1000 + 1/2 = 1000 := by push_cast; norm_num
  have er : jsRound (((1999/2000:ℚ) - ((0:ℤ):ℚ)) * 1000) = 1000 := by
    rw [jsRound, ehalf]
    exact Int_floor_eq_of _ 1000 (by norm_num) (by norm_num)
  refine ⟨?_, ?_, ?_⟩
  · simp only [secondsToTimestamp, divmod, em1, e1, em2, e2, e3, er, Int.floor_intCast]
    decide
  · simp only [secondsToTimestamp, divmod, em1, e1, em2, e2, e3, er, Int.floor_intCast]
    decide
  · simp only [secondsToTimestamp, divmod, em1, e1, em2, e2, e3, er, Int.floor_intCast]
    decide

/-- C7 (amended): for every nonnegative snippet time, both the SRT and
WebVTT renderings are `HH:MM:SS?mmm` with hours zero-padded to at least 2
digits, minutes and seconds to exactly 2 digits, and milliseconds padded to
at least 3 digits — exactly 3 whenever the rounded millisecond value is at
most 999, but 4 digits when the fractional part rounds up to 1000 (`0 ≤
msv ≤ 1000` always holds); a snippet starting at exactly 3600 seconds
renders hour field `01` in both formats. -/
theorem timestamp_field_widths (t : ℚ) (ht : 0 ≤ t) :
    ∃ hh mm ss msv : ℤ,
      secondsToTimestamp srtTimestamp t =
        padNum hh 2 ++ chars ":" ++ padNum mm 2 ++ chars ":" ++ padNum ss 2 ++ chars "," ++
          padNum msv 3 ∧
      secondsToTimestamp vttTimestamp t =
        padNum hh 2 ++ chars ":" ++ padNum mm 2 ++ chars ":" ++ padNum ss 2 ++ chars "." ++
          padNum msv 3 ∧
      0 ≤ hh ∧ 2 ≤ (padNum hh 2).length ∧
      (padNum mm 2).length = 2 ∧ (padNum ss 2).length = 2 ∧
      0 ≤ msv ∧ msv ≤ 1000 ∧
      (msv ≤ 999 → (padNum msv 3).length = 3) ∧
      (msv = 1000 → (padNum msv 3).length = 4) ∧
      secondsToTimestamp srtTimestamp 3600 = chars "01:00:00,000" ∧
      secondsToTimestamp vttTimestamp 3600 = chars "01:00:00.000" := by
  have hrem := jsMod_bounds t 3600 ht (by norm_num)
  have hsec := jsMod_bounds (jsMod t 3600) 60 hrem.1 (by norm_num)
  have hhh : 0 ≤ ⌊t / 3600⌋ := Int.floor_nonneg.mpr (div_nonneg ht (by norm_num))
  have hmm0 : 0 ≤ ⌊jsMod t 3600 / 60⌋ :=
    Int.floor_nonneg.mpr (div_nonneg hrem.1 (by norm_num))
  have hmm1 : ⌊jsMod t 3600 / 60⌋ < 60 := by
    refine Int.floor_lt.mpr ?_
    rw [div_lt_iff₀ (by norm_num : (0:ℚ) < 60)]
    push_cast
    linarith [hrem.2]
  have hss0 : 0 ≤ ⌊jsMod (jsMod t 3600) 60⌋ := Int.floor_nonneg.mpr hsec.1
  have hss1 : ⌊jsMod (jsMod t 3600) 60⌋ < 60 := by
    refine Int.floor_lt.mpr ?_
    exact_mod_cast hsec.2
  have hfr0 : (0:ℚ) ≤ (t - ((⌊t⌋ : ℤ) : ℚ)) * 1000 := by
    have := Int.floor_le t
    nlinarith
  have hfr1 : (t - ((⌊t⌋ : ℤ) : ℚ)) * 1000 < 1000 := by
    have := Int.lt_floor_add_one t
    nlinarith
  have hms0 : 0 ≤ jsRound ((t - ((⌊t⌋ : ℤ) : ℚ)) * 1000) := by
    refine Int.floor_nonneg.mpr ?_
    linarith
  have hms1 : jsRound ((t - ((⌊t⌋ : ℤ) : ℚ)) * 1000) ≤ 1000 := by
    have hlt : jsRound ((t - ((⌊t⌋ : ℤ) : ℚ)) * 1000) < 1001 := by
      refine Int.floor_lt.mpr ?_
      push_cast
      linarith
    omega
  refine ⟨⌊t / 3600⌋, ⌊jsMod t 3600 / 60⌋, ⌊jsMod (jsMod t 3600) 60⌋,
    jsRound ((t - ((⌊t⌋ : ℤ) : ℚ)) * 1000), ?_, ?_, hhh, padNum_length_ge _ 2, ?_, ?_,
    hms0, hms1, ?_, ?_, srt_ts_3600, vtt_ts_3600⟩
  · simp only [secondsToTimestamp, divmod, Int.floor_intCast]
    rfl
  · simp only [secondsToTimestamp, divmod, Int.floor_intCast]
    rfl
  · exact padNum_length_eq _ hmm0 2 (natToDec_length_le_two _ (by omega))
  · exact padNum_length_eq _ hss0 2 (natToDec_length_le_two _ (by omega))
  · intro hle
    exact padNum_length_eq _ hms0 3 (natToDec_length_le_three _ (by omega))
  · intro heq
    rw [heq]
    decide

/-- Witness for C7 (amended) at `t = 3600`. -/
theorem timestamp_field_widths_witness :
    ∃ hh mm ss msv : ℤ,
      secondsToTimestamp srtTimestamp 3600 =
        padNum hh 2 ++ chars ":" ++ padNum mm 2 ++ chars ":" ++ padNum ss 2 ++ chars "," ++
          padNum msv 3 ∧
      secondsToTimestamp vttTimestamp 3600 =
        padNum hh 2 ++ chars ":" ++ padNum mm 2 ++ chars ":" ++ padNum ss 2 ++ chars "." ++
          padNum msv 3 ∧
      0 ≤ hh ∧ 2 ≤ (padNum hh 2).length ∧
      (padNum mm 2).length = 2 ∧ (padNum ss 2).length = 2 ∧
      0 ≤ msv ∧ msv ≤ 1000 ∧
      (msv ≤ 999 → (padNum msv 3).length = 3) ∧
      (msv = 1000 → (padNum msv 3).length = 4) ∧
      secondsToTimestamp srtTimestamp 3600 = chars "01:00:00,000" ∧
      secondsToTimestamp vttTimestamp 3600 = chars "01:00:00.000" :=
  timestamp_field_widths 3600 (by norm_num)

/-! ## C1: preserveFormatting tag handling -/

set_option maxRecDepth 10000 in
/-- C1: evaluation of `parseTranscript` with `preserveFormatting = true` at
`fontTagPayload`: the emitted snippet text retains the non-allow-listed
`<font>` tag (the claim expects every tag outside the allow-list stripped,
i.e. `"hello world <i>x</i>"`), because the allow-list pattern built by
`getHtmlRegex(true)` is never applied — the tag-removal `replace` runs only
in the `!preserveFormatting` branch. -/
theorem parseTranscript_true_keeps_disallowed_tags :
    (parseTranscript fontTagPayload true).map (fun s => s.text) =
      [chars "hello <font>world</font> <i>x</i>"] := by decide

/-! ## C8: identifier extraction from URL shapes -/

theorem spanP_all (p : Char → Bool) (l : Str) (h : ∀ c ∈ l, p c = true) :
    spanP p l = (l, []) := by
  induction l with
  | nil => rfl
  | cons c rest ih =>
    simp [spanP, h c (List.mem_cons_self c rest),
      ih fun d hd => h d (List.mem_cons_of_mem c hd)]

theorem spanP_stop (p : Char → Bool) (a : Str) (b : Char) (s : Str)
    (ha : ∀ c ∈ a, p c = true) (hb : p b = false) :
    spanP p (a ++ b :: s) = (a, b :: s) := by
  induction a with
  | nil => simp [spanP, hb]
  | cons c rest ih =>
    simp [spanP, ha c (List.mem_cons_self c rest),
      ih fun d hd => ha d (List.mem_cons_of_mem c hd)]

theorem takeWhile_all (p : Char → Bool) (l : Str) (h : ∀ c ∈ l, p c = true) :
    l.takeWhile p = l := by
  induction l with
  | nil => rfl
  | cons c rest ih =>
    simp [List.takeWhile, h c (List.mem_cons_self c rest),
      ih fun d hd => h d (List.mem_cons_of_mem c hd)]

theorem splitOnChar_no_sep (sep : Char) (l : Str) (h : ∀ c ∈ l, ¬c = sep) :
    splitOnChar sep l = [l] := by
  induction l with
  | nil => rfl
  | cons c rest ih =>
    simp [splitOnChar, h c (List.mem_cons_self c rest),
      ih fun d hd => h d (List.mem_cons_of_mem c hd)]

theorem includesChar_append (a b : Str) (c : Char) :
    includesChar (a ++ b) c = (includesChar a c || includesChar b c) := by
  induction a with
  | nil => rfl
  | cons d rest ih => by_cases hd : d = c <;> simp [includesChar, hd, ih]

theorem parseURL_https (host rest : Str) (hhost : host ≠ [])
    (hh : ∀ c ∈ host, (!(c = '/' || c = '?' || c = '#')) = true)
    (hr : ∀ c ∈ rest, (!(c = '?' || c = '#')) = true) :
    parseURL (chars "https://" ++ (host ++ '/' :: rest)) =
      some ⟨host, '/' :: rest, []⟩ := by
  unfold parseURL
  rw [matchLit_self]
  simp only
  rw [spanP_stop _ host '/' rest hh (by decide)]
  simp only
  rw [if_neg (by simp [List.isEmpty_iff, hhost])]
  rw [spanP_all _ ('/' :: rest) (by
    intro c hc
    rcases List.mem_cons.mp hc with rfl | hmem
    · decide
    · exact hr c hmem)]
  simp [List.isEmpty_iff]

theorem parseURL_https_query (host p0 q : Str) (hhost : host ≠ [])
    (hh : ∀ c ∈ host, (!(c = '/' || c = '?' || c = '#')) = true)
    (hp : ∀ c ∈ p0, (!(c = '?' || c = '#')) = true)
    (hq : ∀ c ∈ q, (!(c = '#')) = true) :
    parseURL (chars "https://" ++ (host ++ '/' :: (p0 ++ '?' :: q))) =
      some ⟨host, '/' :: p0, q⟩ := by
  unfold parseURL
  rw [matchLit_self]
  simp only
  rw [spanP_stop _ host '/' (p0 ++ '?' :: q) hh (by decide)]
  simp only
  rw [if_neg (by simp [List.isEmpty_iff, hhost])]
  rw [show ('/' :: (p0 ++ '?' :: q)) = (('/' :: p0) ++ '?' :: q) from rfl]
  rw [spanP_stop _ ('/' :: p0) '?' q (by
    intro c hc
    rcases List.mem_cons.mp hc with rfl | hmem
    · decide
    · exact hp c hmem) (by decide)]
  simp only
  rw [if_neg (by simp [List.isEmpty_iff])]
  rw [takeWhile_all _ q hq]

theorem getVideoId_youtu_be (id : Str) (hne : id ≠ [])
    (hid : ∀ c ∈ id,
      (!(c = '/' || c = '?' || c = '#' || c = '&' || c = '=' || c = '%' || c = '+')) = true) :
    getVideoId (chars "https://youtu.be/" ++ id) = .ok id := by
  have hpath : ∀ c ∈ id, (!(c = '?' || c = '#')) = true := fun c hc => by
    have h := hid c hc
    simp only [Bool.not_eq_true', Bool.or_eq_false_iff, decide_eq_false_iff_not] at h ⊢
    tauto
  have heq : chars "https://youtu.be/" ++ id =
      chars "https://" ++ (chars "youtu.be" ++ '/' :: id) := by
    have h0 : chars "https://youtu.be/" = chars "https://" ++ (chars "youtu.be" ++ ['/']) := by
      decide
    rw [h0]
    simp [List.append_assoc]
  have hurl : parseURL (chars "https://youtu.be/" ++ id) =
      some ⟨chars "youtu.be", '/' :: id, []⟩ := by
    rw [heq]
    exact parseURL_https (chars "youtu.be") id (by decide) (by decide) hpath
  have hinc : includesChar (chars "https://youtu.be/" ++ id) '/' = true := by
    rw [includesChar_append]
    simp [show includesChar (chars "https://youtu.be/") '/' = true from by decide]
  have hempty : (chars "https://youtu.be/" ++ id).isEmpty = false := rfl
  unfold getVideoId
  rw [if_neg (by simp [hempty])]
  rw [if_neg (by simp [hinc])]
  rw [hurl]
  simp [hne]

theorem getVideoId_watch (host id : Str) (hne : id ≠ [])
    (hhost3 : host = chars "youtube.com" ∨ host = chars "www.youtube.com" ∨
      host = chars "m.youtube.com")
    (hid : ∀ c ∈ id,
      (!(c = '/' || c = '?' || c = '#' || c = '&' || c = '=' || c = '%' || c = '+')) = true) :
    getVideoId (chars "https://" ++ (host ++ '/' :: (chars "watch" ++ '?' :: (chars "v=" ++ id)))) =
      .ok id := by
  have hq : ∀ c ∈ chars "v=" ++ id, (!(c = '#')) = true := by
    intro c hc
    rcases List.mem_append.mp hc with h1 | h2
    · exact (show ∀ c ∈ chars "v=", (!(c = '#')) = true from by decide) c h1
    · have h := hid c h2
      simp only [Bool.not_eq_true', Bool.or_eq_false_iff, decide_eq_false_iff_not] at h ⊢
      tauto
  have hurl : parseURL (chars "https://" ++
      (host ++ '/' :: (chars "watch" ++ '?' :: (chars "v=" ++ id)))) =
      some ⟨host, '/' :: chars "watch", chars "v=" ++ id⟩ := by
    refine parseURL_https_query host (chars "watch") (chars "v=" ++ id) ?_ ?_ (by decide) hq
    · rcases hhost3 with rfl | rfl | rfl <;> decide
    · rcases hhost3 with rfl | rfl | rfl <;> decide
  have hnoamp : ∀ c ∈ chars "v=" ++ id, ¬c = '&' := by
    intro c hc
    rcases List.mem_append.mp hc with h1 | h2
    · exact (show ∀ c ∈ chars "v=", ¬c = '&' from by decide) c h1
    · have h := hid c h2
      simp only [Bool.not_eq_true', Bool.or_eq_false_iff, decide_eq_false_iff_not] at h
      tauto
  have hsplit : splitOnChar '&' (chars "v=" ++ id) = [chars "v=" ++ id] :=
    splitOnChar_no_sep '&' _ hnoamp
  have hspan : spanP (fun c => !(c = '=')) (chars "v=" ++ id) = (['v'], '=' :: id) :=
    spanP_stop _ ['v'] '=' id (by decide) (by decide)
  have hsearch : searchParamGet (chars "v=" ++ id) (chars "v") = some id := by
    unfold searchParamGet
    rw [hsplit]
    simp [List.findSome?, hspan, show (['v'] : Str) = chars "v" from by decide]
  have hinc : includesChar
      (chars "https://" ++ (host ++ '/' :: (chars "watch" ++ '?' :: (chars "v=" ++ id)))) '/' =
      true := by
    rw [includesChar_append]
    simp [show includesChar (chars "https://") '/' = true from by decide]
  have hyb : ¬host = chars "youtu.be" := by
    rcases hhost3 with rfl | rfl | rfl <;> decide
  have hempty : (chars "https://" ++
      (host ++ '/' :: (chars "watch" ++ '?' :: (chars "v=" ++ id)))).isEmpty = false := rfl
  unfold getVideoId
  rw [if_neg (by simp [hempty])]
  rw [if_neg (by simp [hinc])]
  rw [hurl]
  simp [hyb, hhost3, hsearch, hne, show ('/' :: chars "watch" : Str) = chars "/watch" from by decide]

theorem getVideoId_shorts (id : Str) (hne : id ≠ [])
    (hid : ∀ c ∈ id,
      (!(c = '/' || c = '?' || c = '#' || c = '&' || c = '=' || c = '%' || c = '+')) = true) :
    getVideoId (chars "https://" ++ (chars "www.youtube.com" ++ '/' :: (chars "shorts/" ++ id))) =
      .ok id := by
  have hpath : ∀ c ∈ chars "shorts/" ++ id, (!(c = '?' || c = '#')) = true := by
    intro c hc
    rcases List.mem_append.mp hc with h1 | h2
    · exact (show ∀ c ∈ chars "shorts/", (!(c = '?' || c = '#')) = true from by decide) c h1
    · have h := hid c h2
      simp only [Bool.not_eq_true', Bool.or_eq_false_iff, decide_eq_false_iff_not] at h ⊢
      tauto
  have hurl : parseURL (chars "https://" ++
      (chars "www.youtube.com" ++ '/' :: (chars "shorts/" ++ id))) =
      some ⟨chars "www.youtube.com", '/' :: (chars "shorts/" ++ id), []⟩ :=
    parseURL_https _ _ (by decide) (by decide) hpath
  have hnw : ¬('/' :: (chars "shorts/" ++ id) = chars "/watch") := by
    intro h
    have h2 := congrArg (List.take 2) h
    rw [show List.take 2 ('/' :: (chars "shorts/" ++ id)) = chars "/s" from rfl] at h2
    exact absurd h2 (by decide)
  have hmatch : matchLit (chars "/shorts/") ('/' :: (chars "shorts/" ++ id)) = some id :=
    matchLit_self (chars "/shorts/") id
  have hsplit : splitOnChar '/' id = [id] := by
    refine splitOnChar_no_sep '/' id ?_
    intro c hc
    have h := hid c hc
    simp only [Bool.not_eq_true', Bool.or_eq_false_iff, decide_eq_false_iff_not] at h
    tauto
  have hinc : includesChar (chars "https://" ++
      (chars "www.youtube.com" ++ '/' :: (chars "shorts/" ++ id))) '/' = true := by
    rw [includesChar_append]
    simp [show includesChar (chars "https://") '/' = true from by decide]
  have hempty : (chars "https://" ++
      (chars "www.youtube.com" ++ '/' :: (chars "shorts/" ++ id))).isEmpty = false := rfl
  have hh3 : chars "www.youtube.com" = chars "youtube.com" ∨
      chars "www.youtube.com" = chars "www.youtube.com" ∨
      chars "www.youtube.com" = chars "m.youtube.com" := Or.inr (Or.inl rfl)
  unfold getVideoId
  rw [if_neg (by simp [hempty])]
  rw [if_neg (by simp [hinc])]
  rw [hurl]
  simp [show ¬(chars "www.youtube.com" = chars "youtu.be") from by decide, hh3, hnw, hmatch,
    hsplit, hne]

theorem getVideoId_embed (id : Str) (hne : id ≠ [])
    (hid : ∀ c ∈ id,
      (!(c = '/' || c = '?' || c = '#' || c = '&' || c = '=' || c = '%' || c = '+')) = true) :
    getVideoId (chars "https://" ++ (chars "www.youtube.com" ++ '/' :: (chars "embed/" ++ id))) =
      .ok id := by
  have hpath : ∀ c ∈ chars "embed/" ++ id, (!(c = '?' || c = '#')) = true := by
    intro c hc
    rcases List.mem_append.mp hc with h1 | h2
    · exact (show ∀ c ∈ chars "embed/", (!(c = '?' || c = '#')) = true from by decide) c h1
    · have h := hid c h2
      simp only [Bool.not_eq_true', Bool.or_eq_false_iff, decide_eq_false_iff_not] at h ⊢
      tauto
  have hurl : parseURL (chars "https://" ++
      (chars "www.youtube.com" ++ '/' :: (chars "embed/" ++ id))) =
      some ⟨chars "www.youtube.com", '/' :: (chars "embed/" ++ id), []⟩ :=
    parseURL_https _ _ (by decide) (by decide) hpath
  have hnw : ¬('/' :: (chars "embed/" ++ id) = chars "/watch") := by
    intro h
    have h2 := congrArg (List.take 2) h
    rw [show List.take 2 ('/' :: (chars "embed/" ++ id)) = chars "/e" from rfl] at h2
    exact absurd h2 (by decide)
  have hnshorts : matchLit (chars "/shorts/") ('/' :: (chars "embed/" ++ id)) = none := rfl
  have hmatch : matchLit (chars "/embed/") ('/' :: (chars "embed/" ++ id)) = some id :=
    matchLit_self (chars "/embed/") id
  have hsplit : splitOnChar '/' id = [id] := by
    refine splitOnChar_no_sep '/' id ?_
    intro c hc
    have h := hid c hc
    simp only [Bool.not_eq_true', Bool.or_eq_false_iff, decide_eq_false_iff_not] at h
    tauto
  have hinc : includesChar (chars "https://" ++
      (chars "www.youtube.com" ++ '/' :: (chars "embed/" ++ id))) '/' = true := by
    rw [includesChar_append]
    simp [show includesChar (chars "https://") '/' = true from by decide]
  have hempty : (chars "https://" ++
      (chars "www.youtube.com" ++ '/' :: (chars "embed/" ++ id))).isEmpty = false := rfl
  have hh3 : chars "www.youtube.com" = chars "youtube.com" ∨
      chars "www.youtube.com" = chars "www.youtube.com" ∨
      chars "www.youtube.com" = chars "m.youtube.com" := Or.inr (Or.inl rfl)
  unfold getVideoId
  rw [if_neg (by simp [hempty])]
  rw [if_neg (by simp [hinc])]
  rw [hurl]
  simp [show ¬(chars "www.youtube.com" = chars "youtu.be") from by decide, hh3, hnw, hnshorts,
    hmatch, hsplit, hne]

theorem getVideoId_live (id : Str) (hne : id ≠ [])
    (hid : ∀ c ∈ id,
      (!(c = '/' || c = '?' || c = '#' || c = '&' || c = '=' || c = '%' || c = '+')) = true) :
    getVideoId (chars "https://" ++ (chars "www.youtube.com" ++ '/' :: (chars "live/" ++ id))) =
      .ok id := by
  have hpath : ∀ c ∈ chars "live/" ++ id, (!(c = '?' || c = '#')) = true := by
    intro c hc
    rcases List.mem_append.mp hc with h1 | h2
    · exact (show ∀ c ∈ chars "live/", (!(c = '?' || c = '#')) = true from by decide) c h1
    · have h := hid c h2
      simp only [Bool.not_eq_true', Bool.or_eq_false_iff, decide_eq_false_iff_not] at h ⊢
      tauto
  have hurl : parseURL (chars "https://" ++
      (chars "www.youtube.com" ++ '/' :: (chars "live/" ++ id))) =
      some ⟨chars "www.youtube.com", '/' :: (chars "live/" ++ id), []⟩ :=
    parseURL_https _ _ (by decide) (by decide) hpath
  have hnw : ¬('/' :: (chars "live/" ++ id) = chars "/watch") := by
    intro h
    have h2 := congrArg (List.take 2) h
    rw [show List.take 2 ('/' :: (chars "live/" ++ id)) = chars "/l" from rfl] at h2
    exact absurd h2 (by decide)
  have hnshorts : matchLit (chars "/shorts/") ('/' :: (chars "live/" ++ id)) = none := rfl
  have hnembed : matchLit (chars "/embed/") ('/' :: (chars "live/" ++ id)) = none := rfl
  have hmatch : matchLit (chars "/live/") ('/' :: (chars "live/" ++ id)) = some id :=
    matchLit_self (chars "/live/") id
  have hsplit : splitOnChar '/' id = [id] := by
    refine splitOnChar_no_sep '/' id ?_
    intro c hc
    have h := hid c hc
    simp only [Bool.not_eq_true', Bool.or_eq_false_iff, decide_eq_false_iff_not] at h
    tauto
  have hinc : includesChar (chars "https://" ++
      (chars "www.youtube.com" ++ '/' :: (chars "live/" ++ id))) '/' = true := by
    rw [includesChar_append]
    simp [show includesChar (chars "https://") '/' = true from by decide]
  have hempty : (chars "https://" ++
      (chars "www.youtube.com" ++ '/' :: (chars "live/" ++ id))).isEmpty = false := rfl
  have hh3 : chars "www.youtube.com" = chars "youtube.com" ∨
      chars "www.youtube.com" = chars "www.youtube.com" ∨
      chars "www.youtube.com" = chars "m.youtube.com" := Or.inr (Or.inl rfl)
  unfold getVideoId
  rw [if_neg (by simp [hempty])]
  rw [if_neg (by simp [hinc])]
  rw [hurl]
  simp [show ¬(chars "www.youtube.com" = chars "youtu.be") from by decide, hh3, hnw, hnshorts,
    hnembed, hmatch, hsplit, hne]

/-- C8: for every identifier token (nonempty, free of URL metacharacters)
and every accepted URL shape carrying it — youtu.be short link,
youtube.com / www.youtube.com / m.youtube.com watch URLs, and the
`/shorts/`, `/embed/`, `/live/` path forms — `getVideoId` returns exactly
the embedded identifier. -/
theorem getVideoId_url_shapes (id : Str) (hne : id ≠ [])
    (hid : ∀ c ∈ id,
      (!(c = '/' || c = '?' || c = '#' || c = '&' || c = '=' || c = '%' || c = '+')) = true) :
    getVideoId (chars "https://youtu.be/" ++ id) = .ok id ∧
    getVideoId (chars "https://www.youtube.com/watch?v=" ++ id) = .ok id ∧
    getVideoId (chars "https://youtube.com/watch?v=" ++ id) = .ok id ∧
    getVideoId (chars "https://m.youtube.com/watch?v=" ++ id) = .ok id ∧
    getVideoId (chars "https://www.youtube.com/shorts/" ++ id) = .ok id ∧
    getVideoId (chars "https://www.youtube.com/embed/" ++ id) = .ok id ∧
    getVideoId (chars "https://www.youtube.com/live/" ++ id) = .ok id :=
  ⟨getVideoId_youtu_be id hne hid,
   getVideoId_watch (chars "www.youtube.com") id hne (Or.inr (Or.inl rfl)) hid,
   getVideoId_watch (chars "youtube.com") id hne (Or.inl rfl) hid,
   getVideoId_watch (chars "m.youtube.com") id hne (Or.inr (Or.inr rfl)) hid,
   getVideoId_shorts id hne hid,
   getVideoId_embed id hne hid,
   getVideoId_live id hne hid⟩

/-- Witness for C8 at the identifier `dQw4w9WgXcQ`. -/
theorem getVideoId_url_shapes_witness :
    getVideoId (chars "https://youtu.be/" ++ chars "dQw4w9WgXcQ") = .ok (chars "dQw4w9WgXcQ") ∧
    getVideoId (chars "https://www.youtube.com/watch?v=" ++ chars "dQw4w9WgXcQ") =
      .ok (chars "dQw4w9WgXcQ") ∧
    getVideoId (chars "https://youtube.com/watch?v=" ++ chars "dQw4w9WgXcQ") =
      .ok (chars "dQw4w9WgXcQ") ∧
    getVideoId (chars "https://m.youtube.com/watch?v=" ++ chars "dQw4w9WgXcQ") =
      .ok (chars "dQw4w9WgXcQ") ∧
    getVideoId (chars "https://www.youtube.com/shorts/" ++ chars "dQw4w9WgXcQ") =
      .ok (chars "dQw4w9WgXcQ") ∧
    getVideoId (chars "https://www.youtube.com/embed/" ++ chars "dQw4w9WgXcQ") =
      .ok (chars "dQw4w9WgXcQ") ∧
    getVideoId (chars "https://www.youtube.com/live/" ++ chars "dQw4w9WgXcQ") =
      .ok (chars "dQw4w9WgXcQ") :=
  getVideoId_url_shapes (chars "dQw4w9WgXcQ") (by decide) (by decide)
